import Mathlib

/-! SSVAutoUpdater: reconciliation and download orchestration.

A shallow embedding of the two updater variants of the repository:

* `src/AutoUpdater.cpp` (class `ssvau::AutoUpdater`), embedded in the namespace
  `SSVAutoUpdater.AutoUpdater`;
* `src/src/SSVAutoUpdater/main.cpp` (the standalone updater built on global variables),
  embedded in the namespace `SSVAutoUpdater.Main`.

Strings are Lean `String`s.  The file system, the HTTP transport, the JSON library and the
MD5 digest are collaborators outside the repository; they are modelled by the small
executable definitions of the first sections (file system, JSON values) or taken as
parameters (`Env`: transport, JSON reader, digest, folder-name helpers).

Modelling decisions:

* Log output (`log`, `ssvu::lo`) changes neither the disk nor the program state and is left
  out; `runDisplayData` only logs and has no counterpart.
* The disk is a list of regular files with their contents and a list of directories.
* Opening a file for writing can fail (missing parent folder, the path is a directory, no
  permission).  Whether `std::ofstream` opens a path on a given disk is the collaborator
  `Env.canOpen`; the source never checks the stream, so on a stream that failed to open the
  following `<<`, `flush` and `close` do nothing.
* `World.trace` records the operations that change the disk and, as ghost state, the failed
  opens and the entries into the two per-file download procedures, so that "is called",
  "happens before" and "all writes succeed" can be stated.
* JSON accessors behave as in jsoncpp: a member of a value that is no object is `null`, the
  string of a value that is no string is empty, iterating a value that is no container
  yields nothing.
* Threads: every thread created by the source is awaited (`waitFor`) right after it has been
  launched, or (the two `startGetJsonRoot` threads) writes a target no other thread touches,
  and the transport is a function of the request.  The embedding therefore runs the thread
  bodies in program order.
-/

namespace SSVAutoUpdater

/-! ## Strings -/

/-- The library predicate `startsWith(mString, mStart)`: `mStart` is a leading part of
`mString`. -/
def startsWith (mString mStart : String) : Bool :=
  mStart.data.isPrefixOf mString.data

/-- The library predicate `contains(mVector, mItem)`: some element equals `mItem`. -/
def contains (mVector : List String) (mItem : String) : Bool :=
  mVector.any (fun x => x == mItem)

/-- First-occurrence replacement on character lists: the leftmost occurrence of `mFrom` in the
input is replaced by `mTo`; without an occurrence the input is returned as it is
(`std::string::find` followed by `std::string::replace`). -/
def replaceChars (mFrom mTo : List Char) : List Char → List Char
  | [] => if mFrom.isPrefixOf [] then mTo else []
  | c :: cs =>
    if mFrom.isPrefixOf (c :: cs) then mTo ++ (c :: cs).drop mFrom.length
    else c :: replaceChars mFrom mTo cs

/-- The library function `replace(mString, mFrom, mTo)` (`ssvu::getReplaced` in the standalone
updater): a copy of `mString` with the first occurrence of `mFrom` replaced by `mTo`. -/
def replace (mString mFrom mTo : String) : String :=
  ⟨replaceChars mFrom.data mTo.data mString.data⟩

/-! ## Records -/

/-- The record `FileData` of `AutoUpdater.h`, with the fields in the order of the initialisers
`{getValue<string>(f, "md5"), childPath}` of `runGetServerData`. -/
structure FileData where
  md5 : String
  path : String
  deriving DecidableEq, Repr

/-- Modelled from the spec: `FileData::operator==` of `AutoUpdater.h`, which `std::find` uses
in `AutoUpdater::run` ("Find a file with the same name in the local file data"; "find a local
entry with the same exact path"): two entries are equal when their paths are. -/
def FileData.same (a b : FileData) : Bool :=
  a.path == b.path

/-- The record `DownloadData` of `AutoUpdater.h`, with the fields in the order of the
initialisers `{serverFile.path, true}` of `run`. -/
structure DownloadData where
  path : String
  existsLocally : Bool
  deriving DecidableEq, Repr

/-- The type `ssvu::FileSystem::Path` of `main.cpp`: a path held as a string (construction
from a string and conversion back are taken to keep the characters). -/
abbrev Path := String

namespace Main

/-- The record `Target` of `main.cpp`. -/
structure Target where
  remoteFolder : Path
  localFolder : Path
  deriving DecidableEq, Repr

/-- The record `DownloadData` of `main.cpp`, with the members in declaration order:
`bool localExists; Path remotePath, localPath; std::string remoteMD5, localMD5;`. -/
structure DownloadData where
  localExists : Bool
  remotePath : Path
  localPath : Path
  remoteMD5 : String
  localMD5 : String
  deriving DecidableEq, Repr

end Main

/-! ## File system -/

/-- What the trace records, in execution order: the operations that change the file system,
the opens for writing that failed, and the entries into the two per-file download procedures
(`AutoUpdater::startGetFile` and `download` of `main.cpp`), each with its argument. -/
inductive Event where
  | openWrite (path : String)
  | openFailed (path : String)
  | write (path : String) (contents : String)
  | mkdir (path : String)
  | startGetFile (d : DownloadData)
  | download (d : Main.DownloadData)
  deriving DecidableEq, Repr

/-- The file system: regular files (path and contents) and directories, together with the
trace of the operations performed so far. -/
structure World where
  files : List (String × String)
  dirs : List String
  trace : List Event
  deriving DecidableEq, Repr

namespace World

/-- Append an event to the trace. -/
def record (w : World) (e : Event) : World :=
  { w with trace := w.trace ++ [e] }

/-- Contents of the regular file at `p`, if there is one. -/
def lookup (w : World) (p : String) : Option String :=
  (w.files.find? (fun f => f.1 == p)).map (fun f => f.2)

/-- Replace the contents of `p`, creating the file when it is missing. -/
def setFile (files : List (String × String)) (p c : String) : List (String × String) :=
  if files.any (fun f => f.1 == p) then
    files.map (fun f => if f.1 == p then (p, c) else f)
  else files ++ [(p, c)]

/-- Constructing `std::ofstream ofs{p, std::ofstream::binary}`, where `good` tells whether the
open succeeds: on success the file is created or truncated to length zero, on failure the
disk stays as it is and the stream is left in a failed state. -/
def openWrite (w : World) (p : String) (good : Bool) : World :=
  if good then
    { w with files := setFile w.files p "", trace := w.trace ++ [Event.openWrite p] }
  else { w with trace := w.trace ++ [Event.openFailed p] }

/-- The sequence `ofs << c; ofs.flush(); ofs.close()` on the stream constructed on `p`, where
`good` tells whether that stream is open; on a failed stream nothing is written. -/
def write (w : World) (p c : String) (good : Bool) : World :=
  if good then
    { w with files := setFile w.files p c, trace := w.trace ++ [Event.write p c] }
  else w

/-- The library function `getFileContents(p)`: the bytes of the file, the empty string when it
cannot be opened. -/
def getFileContents (w : World) (p : String) : String :=
  (w.lookup p).getD ""

/-- The library predicate `exists(p)`: a file or a directory of that name exists. -/
def existsPath (w : World) (p : String) : Bool :=
  w.files.any (fun f => f.1 == p) || w.dirs.any (fun d => d == p)

/-- The predicate `Path::existsAsFolder()`. -/
def existsAsFolder (w : World) (p : String) : Bool :=
  w.dirs.any (fun d => d == p)

/-- Directory creation (`mkdir`, `createFolder`). -/
def mkdir (w : World) (p : String) : World :=
  { w with dirs := if w.dirs.any (fun d => d == p) then w.dirs else w.dirs ++ [p],
           trace := w.trace ++ [Event.mkdir p] }

/-- The library function `getRecursiveFiles(folder)`: the regular files below `folder`, each
as the folder path, closed by a separator, followed by the path of the file inside the
folder. -/
def getRecursiveFiles (w : World) (folder : String) : List String :=
  let root := if folder.data.getLast? = some '/' then folder else folder ++ "/"
  (w.files.filter (fun f => startsWith f.1 root)).map (fun f => f.1)

end World

/-! ## HTTP and JSON -/

/-- An `sf::Http::Response`, reduced to what the updater consumes: whether the status is
`Response::Ok`, and the body. -/
structure Response where
  ok : Bool
  body : String
  deriving DecidableEq, Repr

/-- A JSON value (`Json::Value`). -/
inductive Json where
  | null
  | str (s : String)
  | arr (items : List Json)
  | obj (members : List (String × Json))

namespace Json

/-- Member access `mRoot[mKey]`: the member of an object, `null` for a missing member and for
a value that is not an object. -/
def member : Json → String → Json
  | obj members, k => ((members.find? (fun m => m.1 == k)).map (fun m => m.2)).getD null
  | _, _ => null

/-- Conversion `asString()`. -/
def asString : Json → String
  | str s => s
  | _ => ""

/-- The values iterated by `for(auto& f : mRoot)`. -/
def items : Json → List Json
  | arr xs => xs
  | obj members => members.map (fun m => m.2)
  | _ => []

/-- The helper `getValue<string>(mRoot, mKey)` (`ssvuj::getAs<std::string>`). -/
def getValue (mRoot : Json) (mKey : String) : String :=
  (mRoot.member mKey).asString

/-- The helper `getArray<string>(mRoot, mKey)` (`ssvuj::getAs<std::vector<std::string>>`). -/
def getArray (mRoot : Json) (mKey : String) : List String :=
  (mRoot.member mKey).items.map asString

end Json

/-- Collaborators the source calls and that are not part of the embedded files. -/
structure Env where
  /-- The helper `getGetResponse(host, hostFolder, file)` of `ssvau::Utils`. -/
  getGetResponse : String → String → String → Response
  /-- The request `sf::Http(host).sendRequest(uri)`. -/
  sendRequest : String → String → Response
  /-- The JSON reader `getRootFromString` (`ssvuj::getFromString`). -/
  getRootFromString : String → Json
  /-- The digest `getMD5Hash` (`ssvu::Encryption::encrypt<Type::MD5>`). -/
  getMD5Hash : String → String
  /-- The helper `getFolderNames(path)` of `ssvau::Utils`: the folders leading to `path`. -/
  getFolderNames : String → List String
  /-- The scan `getScan<Mode::Recurse, Type::Folder>(path)` behind `getFolderNames` of
  `main.cpp`, which reads the directories on disk. -/
  getScanFolders : World → String → List String
  /-- Whether `std::ofstream` succeeds in opening the path for writing on the disk. -/
  canOpen : World → String → Bool

/-! ## `AutoUpdater.cpp` -/

/-- The data members of `class AutoUpdater`. -/
structure AutoUpdater where
  host : String
  hostFolder : String
  localFolder : String
  hostConfigFile : String
  hostScript : String
  updaterConfigRoot : Json
  serverFilesRoot : Json
  serverFolder : String
  serverExcludedFiles : List String
  serverExcludedFolders : List String
  serverFiles : List FileData
  localFiles : List FileData
  toDownload : List DownloadData

namespace AutoUpdater

/-- The constructor `AutoUpdater(mHost, mHostFolder, mLocalFolder)`; the names of the two
server documents are members initialised in the header. -/
def new (mHost mHostFolder mLocalFolder hostConfigFile hostScript : String) : AutoUpdater :=
  { host := mHost, hostFolder := mHostFolder, localFolder := mLocalFolder,
    hostConfigFile := hostConfigFile, hostScript := hostScript,
    updaterConfigRoot := Json.null, serverFilesRoot := Json.null,
    serverFolder := "", serverExcludedFiles := [], serverExcludedFolders := [],
    serverFiles := [], localFiles := [], toDownload := [] }

/-- The thread body of `startGetJsonRoot`: the new value of `mTargetRoot`. -/
def startGetJsonRoot (env : Env) (a : AutoUpdater) (mTargetRoot : Json)
    (mServerFileName : String) : Json :=
  let response := env.getGetResponse a.host a.hostFolder mServerFileName
  if response.ok then env.getRootFromString response.body else mTargetRoot

/-- The thread body of `startGetFileContents`: the new value of `mTargetString`. -/
def startGetFileContents (env : Env) (a : AutoUpdater) (mTargetString : String)
    (mServerFileName : String) : String :=
  let response := env.getGetResponse a.host a.hostFolder mServerFileName
  if response.ok then response.body else mTargetString

/-- The method `runGetServerData`. -/
def runGetServerData (env : Env) (w : World) (a : AutoUpdater) : AutoUpdater :=
  let configRoot := startGetJsonRoot env a a.updaterConfigRoot a.hostConfigFile
  let filesRoot := startGetJsonRoot env a a.serverFilesRoot a.hostScript
  let serverFolder := Json.getValue configRoot "dataFolder"
  { a with
    updaterConfigRoot := configRoot
    serverFilesRoot := filesRoot
    serverFolder := serverFolder
    serverExcludedFiles := Json.getArray configRoot "excludedFiles"
    serverExcludedFolders := Json.getArray configRoot "excludedFolders"
    serverFiles := a.serverFiles ++ filesRoot.items.map (fun f =>
      { md5 := Json.getValue f "md5",
        path := replace (Json.getValue f "path") serverFolder "" })
    localFiles := a.localFiles ++ (w.getRecursiveFiles a.localFolder).map (fun f =>
      { md5 := env.getMD5Hash (w.getFileContents f),
        path := replace f a.localFolder "" }) }

/-- One iteration of the loop `for(auto& serverFile : serverFiles)` of `run`. -/
def reconcileStep (a : AutoUpdater) (serverFile : FileData) : AutoUpdater :=
  let localItr := a.localFiles.find? (fun l => FileData.same l serverFile)
  let mustContinue := false
  let mustContinue :=
    if contains a.serverExcludedFiles serverFile.path then true else mustContinue
  let mustContinue := a.serverExcludedFolders.foldl
    (fun mc excludedFolder => if startsWith serverFile.path excludedFolder then true else mc)
    mustContinue
  if mustContinue then a
  else
    match localItr with
    | some localFile =>
      if localFile.md5 = serverFile.md5 then a
      else { a with toDownload := a.toDownload ++ [{ path := serverFile.path, existsLocally := true }] }
    | none =>
      { a with toDownload := a.toDownload ++ [{ path := serverFile.path, existsLocally := false }] }

/-- The reconciliation loop of `run` (lines 85 to 131). -/
def reconcile (a : AutoUpdater) : AutoUpdater :=
  a.serverFiles.foldl reconcileStep a

/-- The thread body of `startGetFile`. -/
def startGetFile (env : Env) (a : AutoUpdater) (mServerFolder mLocalFolder : String)
    (mDownloadData : DownloadData) (w : World) : World :=
  let w := w.record (Event.startGetFile mDownloadData)
  let w :=
    if mDownloadData.existsLocally then
      let ofs := env.canOpen w (mLocalFolder ++ mDownloadData.path ++ ".bak")
      let w := w.openWrite (mLocalFolder ++ mDownloadData.path ++ ".bak") ofs
      let backupContents := w.getFileContents (mLocalFolder ++ mDownloadData.path)
      w.write (mLocalFolder ++ mDownloadData.path ++ ".bak") backupContents ofs
    else w
  let w := (env.getFolderNames mDownloadData.path).foldl
    (fun w folderName =>
      if !w.existsPath (mLocalFolder ++ folderName) then w.mkdir (mLocalFolder ++ folderName)
      else w) w
  let serverContents := startGetFileContents env a "" (mServerFolder ++ mDownloadData.path)
  let ofs := env.canOpen w (mLocalFolder ++ mDownloadData.path)
  let w := w.openWrite (mLocalFolder ++ mDownloadData.path) ofs
  w.write (mLocalFolder ++ mDownloadData.path) serverContents ofs

/-- The thread body of `startDownload`. -/
def startDownload (env : Env) (a : AutoUpdater) (mServerFolder mLocalFolder : String)
    (mToDownload : List DownloadData) (w : World) : World :=
  mToDownload.foldl (fun w td => startGetFile env a mServerFolder mLocalFolder td w) w

/-- The method `runDownload`. -/
def runDownload (env : Env) (a : AutoUpdater) (w : World) : World :=
  startDownload env a a.serverFolder a.localFolder a.toDownload w

/-- The method `run`: `runGetServerData`, creation of the local folder, the reconciliation
loop, and `runDownload` when the plan is not empty.  The result is the updater state and the
disk after the run. -/
def run (env : Env) (a : AutoUpdater) (w : World) : AutoUpdater × World :=
  let a := runGetServerData env w a
  let w := if !w.existsPath a.localFolder then w.mkdir a.localFolder else w
  let a := reconcile a
  let w := if !a.toDownload.isEmpty then runDownload env a w else w
  (a, w)

end AutoUpdater

/-! ## `main.cpp` -/

namespace Main

/-- The global variables of `main.cpp`. -/
structure Globals where
  backupFolder : String
  host : String
  hostMainFolder : String
  hostMainConfig : String
  hostMainScript : String
  remoteDataFolder : String
  remoteExcludedFiles : List Path
  remoteExcludedFolders : List Path
  remoteOnlyNewFiles : List Path
  targets : List Target
  downloadDatas : List DownloadData
  deriving DecidableEq, Repr

/-- The globals as initialised at program start: `backupFolder{"_BACKUP/"}`, everything else
empty. -/
def initial : Globals :=
  { backupFolder := "_BACKUP/", host := "", hostMainFolder := "", hostMainConfig := "",
    hostMainScript := "", remoteDataFolder := "", remoteExcludedFiles := [],
    remoteExcludedFolders := [], remoteOnlyNewFiles := [], targets := [], downloadDatas := [] }

/-- The function `getFolderNames(mPath)` of `main.cpp`. -/
def getFolderNames (env : Env) (w : World) (mPath : Path) : List Path :=
  env.getScanFolders w mPath

/-- The function `downloadFileContents(mRemotePath)`. -/
def downloadFileContents (env : Env) (g : Globals) (mRemotePath : Path) : String :=
  let response := env.sendRequest g.host mRemotePath
  if response.ok then response.body else ""

/-- The function `download(mDownloadData)`. -/
def download (env : Env) (g : Globals) (mDownloadData : DownloadData) (w : World) : World :=
  let w := w.record (Event.download mDownloadData)
  let w :=
    if mDownloadData.localExists then
      let w := if !w.existsPath g.backupFolder then w.mkdir g.backupFolder else w
      let w := (getFolderNames env w mDownloadData.localPath).foldl
        (fun w f =>
          if !w.existsPath (g.backupFolder ++ f) then w.mkdir (g.backupFolder ++ f) else w) w
      let ofs := env.canOpen w (g.backupFolder ++ mDownloadData.localPath)
      let w := w.openWrite (g.backupFolder ++ mDownloadData.localPath) ofs
      w.write (g.backupFolder ++ mDownloadData.localPath)
        (w.getFileContents mDownloadData.localPath) ofs
    else w
  let w := (getFolderNames env w mDownloadData.localPath).foldl
    (fun w f => if !w.existsPath f then w.mkdir f else w) w
  let ofs := env.canOpen w mDownloadData.localPath
  let w := w.openWrite mDownloadData.localPath ofs
  w.write mDownloadData.localPath
    (downloadFileContents env g (g.hostMainFolder ++ mDownloadData.remotePath)) ofs

/-- The function `loadLocalConfig()`, reading `updaterConfig.json`. -/
def loadLocalConfig (env : Env) (w : World) (g : Globals) : Globals :=
  let localConfig := env.getRootFromString (w.getFileContents "updaterConfig.json")
  { g with
    host := Json.getValue localConfig "host"
    hostMainFolder := Json.getValue localConfig "hostMainFolder"
    hostMainConfig := Json.getValue localConfig "hostMainConfig"
    hostMainScript := Json.getValue localConfig "hostMainScript"
    targets := g.targets ++ (localConfig.member "targets").items.map (fun t =>
      { remoteFolder := Json.getValue t "remoteFolder",
        localFolder := Json.getValue t "localFolder" }) }

/-- The function `loadRemoteConfig()`. -/
def loadRemoteConfig (env : Env) (g : Globals) : Globals :=
  let remoteConfig := env.getRootFromString
    (downloadFileContents env g (g.hostMainFolder ++ g.hostMainConfig))
  { g with
    remoteDataFolder := Json.getValue remoteConfig "dataFolder"
    remoteExcludedFiles := g.remoteExcludedFiles ++ Json.getArray remoteConfig "excludedFiles"
    remoteExcludedFolders :=
      g.remoteExcludedFolders ++ Json.getArray remoteConfig "excludedFolders"
    remoteOnlyNewFiles := g.remoteOnlyNewFiles ++ Json.getArray remoteConfig "onlyNewFiles" }

/-- The local path `loadRemoteScript` computes for a remote path: `remoteDataFolder` removed,
then every target mapping applied in turn. -/
def computeLocalPath (g : Globals) (remotePath : String) : Path :=
  g.targets.foldl (fun localPath t => replace localPath t.remoteFolder t.localFolder)
    (replace remotePath g.remoteDataFolder "")

/-- One iteration of the loop `for(auto& f : remoteScriptResult)` of `loadRemoteScript`.  The
record is built by the aggregate initialiser
`{localExists, remotePath, remoteMD5, localPath, localMD5}`, whose values go to the members
in declaration order. -/
def loadRemoteScriptStep (env : Env) (w : World) (g : Globals) (f : Json) : Globals :=
  let remotePath := Json.getValue f "path"
  let remoteMD5 := Json.getValue f "md5"
  let localPath := computeLocalPath g remotePath
  let localExists := w.existsPath localPath
  if w.existsAsFolder localPath then g
  else
    let localMD5 := if localExists then env.getMD5Hash (w.getFileContents localPath) else ""
    { g with downloadDatas :=
        g.downloadDatas ++ [⟨localExists, remotePath, remoteMD5, localPath, localMD5⟩] }

/-- The function `loadRemoteScript()`. -/
def loadRemoteScript (env : Env) (w : World) (g : Globals) : Globals :=
  let remoteScriptResult := env.getRootFromString
    (downloadFileContents env g (g.hostMainFolder ++ g.hostMainScript))
  remoteScriptResult.items.foldl (loadRemoteScriptStep env w) g

/-- One iteration of the loop `for(const auto& d : downloadDatas)` of `processDownloads`. -/
def processDownloadsStep (env : Env) (g : Globals) (w : World) (d : DownloadData) : World :=
  if d.localExists && d.localMD5 == d.remoteMD5 then w
  else if d.localExists && contains g.remoteOnlyNewFiles d.remotePath then w
  else download env g d w

/-- The function `processDownloads()`. -/
def processDownloads (env : Env) (g : Globals) (w : World) : World :=
  g.downloadDatas.foldl (processDownloadsStep env g) w

/-- The function `main()`, up to the saving of the log. -/
def main (env : Env) (w : World) : Globals × World :=
  let g := loadLocalConfig env w initial
  let g := loadRemoteConfig env g
  let g := loadRemoteScript env w g
  (g, processDownloads env g w)

end Main

/-! ## Reconciliation (`AutoUpdater::run`) -/

namespace AutoUpdater

/-- The plan the reconciliation is specified to compute: the server file list, in listing
order, restricted to the entries that are not excluded (by file or by folder) and that are
absent locally or present locally with a different md5; an entry is emitted with
`existsLocally` telling whether a local entry of that path exists. -/
def expectedPlan (a : AutoUpdater) : List DownloadData :=
  (a.serverFiles.filter (fun s => decide (
      s.path ∉ a.serverExcludedFiles ∧
      (∀ e ∈ a.serverExcludedFolders, ¬ e.data <+: s.path.data) ∧
      ((∀ l ∈ a.localFiles, l.path ≠ s.path) ∨
        (∃ l ∈ a.localFiles, l.path = s.path ∧ l.md5 ≠ s.md5))))).map
    (fun s => { path := s.path, existsLocally := decide (∃ l ∈ a.localFiles, l.path = s.path) })

/-- Tasks appended by one iteration of the reconciliation loop, as a function of the lists the
loop reads. -/
def emitted (exFiles exFolders : List String) (localFiles : List FileData) (s : FileData) :
    List DownloadData :=
  if contains exFiles s.path || exFolders.any (fun e => startsWith s.path e) then []
  else
    match localFiles.find? (fun l => FileData.same l s) with
    | some l => if l.md5 = s.md5 then [] else [{ path := s.path, existsLocally := true }]
    | none => [{ path := s.path, existsLocally := false }]

end AutoUpdater

namespace AutoUpdater

/-- The example scenario: locally `a.txt` with fingerprint `X`; on the server `a.txt` with
fingerprint `Y`, `b.txt` with fingerprint `Z` and `docs/c.txt`; `docs/` is an excluded
folder. -/
def exampleUpdater : AutoUpdater :=
  { AutoUpdater.new "host" "/" "local/" "config.json" "files.php" with
    serverExcludedFolders := ["docs/"]
    serverFiles := [⟨"Y", "a.txt"⟩, ⟨"Z", "b.txt"⟩, ⟨"W", "docs/c.txt"⟩]
    localFiles := [⟨"X", "a.txt"⟩] }

end AutoUpdater

namespace World

/-- The arguments of the calls of `download` (of `main.cpp`) recorded in the trace, in call
order. -/
def downloadCalls (w : World) : List Main.DownloadData :=
  w.trace.filterMap (fun e => match e with
    | Event.download d => some d
    | _ => none)

/-- The arguments of the runs of `AutoUpdater::startGetFile` recorded in the trace, in
order. -/
def startGetFileCalls (w : World) : List DownloadData :=
  w.trace.filterMap (fun e => match e with
    | Event.startGetFile d => some d
    | _ => none)

/-- The paths whose opening for writing failed, in order. -/
def openFailures (w : World) : List String :=
  w.trace.filterMap (fun e => match e with
    | Event.openFailed p => some p
    | _ => none)

/-- An empty disk with an empty trace. -/
def empty : World :=
  { files := [], dirs := [], trace := [] }

end World

namespace Main

/-- The entries for which the loop of `processDownloads` reaches its last branch. -/
def reachesDownload (g : Globals) (d : DownloadData) : Bool :=
  !(d.localExists && d.localMD5 == d.remoteMD5) &&
    !(d.localExists && contains g.remoteOnlyNewFiles d.remotePath)

end Main

/-! ## Concrete scenarios -/

/-- The folder part of a path: everything up to and including its last separator (empty when
the path has no separator). -/
def parentFolder (p : String) : String :=
  ⟨(p.data.reverse.dropWhile (fun c => c != '/')).reverse⟩

/-- Opening for writing on a plain disk: the path is not empty, is no directory, and its
folder part is empty (the working directory) or an existing directory. -/
def plainDisk (w : World) (p : String) : Bool :=
  p != "" && !w.existsAsFolder p &&
    (parentFolder p == "" || w.existsAsFolder (parentFolder p))

/-- A toy digest: the contents behind the tag `md5:`. -/
def toyDigest (contents : String) : String :=
  "md5:" ++ contents

namespace Main

/-- The globals after a local configuration naming the host, the server folder `srv/` and the
two server documents, without targets. -/
def configured : Globals :=
  { initial with host := "host", hostMainFolder := "srv/", hostMainConfig := "config.json",
                 hostMainScript := "files.php" }

/-- A server that excludes the file `a.txt` and the folder `docs/`, and lists `a.txt` and
`docs/c.txt`. -/
def excludingEnv : Env :=
  { getGetResponse := fun _ _ _ => ⟨false, ""⟩
    sendRequest := fun _ uri =>
      if uri = "srv/config.json" then ⟨true, "CONFIG"⟩
      else if uri = "srv/files.php" then ⟨true, "LISTING"⟩
      else if uri = "srv/a.txt" then ⟨true, "remote a"⟩
      else if uri = "srv/docs/c.txt" then ⟨true, "remote c"⟩
      else ⟨false, ""⟩
    getRootFromString := fun body =>
      if body = "CONFIG" then
        Json.obj [("dataFolder", Json.str ""),
                  ("excludedFiles", Json.arr [Json.str "a.txt"]),
                  ("excludedFolders", Json.arr [Json.str "docs/"]),
                  ("onlyNewFiles", Json.arr [])]
      else if body = "LISTING" then
        Json.arr [Json.obj [("path", Json.str "a.txt"), ("md5", Json.str "Y")],
                  Json.obj [("path", Json.str "docs/c.txt"), ("md5", Json.str "W")]]
      else Json.null
    getMD5Hash := toyDigest
    getFolderNames := fun _ => []
    getScanFolders := fun _ _ => []
    canOpen := plainDisk }

/-- A server without exclusions that lists `a.txt` with the digest of the contents `same`. -/
def upToDateEnv : Env :=
  { getGetResponse := fun _ _ _ => ⟨false, ""⟩
    sendRequest := fun _ uri =>
      if uri = "srv/config.json" then ⟨true, "CONFIG"⟩
      else if uri = "srv/files.php" then ⟨true, "LISTING"⟩
      else if uri = "srv/a.txt" then ⟨true, "same"⟩
      else ⟨false, ""⟩
    getRootFromString := fun body =>
      if body = "CONFIG" then
        Json.obj [("dataFolder", Json.str ""), ("excludedFiles", Json.arr []),
                  ("excludedFolders", Json.arr []), ("onlyNewFiles", Json.arr [])]
      else if body = "LISTING" then
        Json.arr [Json.obj [("path", Json.str "a.txt"), ("md5", Json.str "md5:same")]]
      else Json.null
    getMD5Hash := toyDigest
    getFolderNames := fun _ => []
    getScanFolders := fun _ _ => []
    canOpen := plainDisk }

/-- A disk holding `a.txt` with the contents `same`. -/
def upToDateWorld : World :=
  { files := [("a.txt", "same")], dirs := [], trace := [] }

/-- A server with the data folder `data/` that lists `data/bin/tool` with the digest `M`. -/
def mappingEnv : Env :=
  { getGetResponse := fun _ _ _ => ⟨false, ""⟩
    sendRequest := fun _ uri =>
      if uri = "srv/config.json" then ⟨true, "CONFIG"⟩
      else if uri = "srv/files.php" then ⟨true, "LISTING"⟩
      else if uri = "srv/data/bin/tool" then ⟨true, "new tool"⟩
      else ⟨false, ""⟩
    getRootFromString := fun body =>
      if body = "CONFIG" then
        Json.obj [("dataFolder", Json.str "data/"), ("excludedFiles", Json.arr []),
                  ("excludedFolders", Json.arr []), ("onlyNewFiles", Json.arr [])]
      else if body = "LISTING" then
        Json.arr [Json.obj [("path", Json.str "data/bin/tool"), ("md5", Json.str "M")]]
      else Json.null
    getMD5Hash := toyDigest
    getFolderNames := fun _ => []
    getScanFolders := fun _ _ => []
    canOpen := plainDisk }

/-- The globals of `configured` with the target mapping `bin/` to `app/`. -/
def mappingConfigured : Globals :=
  { configured with targets := [{ remoteFolder := "bin/", localFolder := "app/" }] }

/-- A disk holding `app/tool` with the contents `old tool`. -/
def mappingWorld : World :=
  { files := [("app/tool", "old tool")], dirs := ["app/"], trace := [] }

/-- Globals with one entry kept by `remoteOnlyNewFiles`: `keep.cfg` exists locally and its
two digests differ. -/
def retainingGlobals : Globals :=
  { configured with
    remoteOnlyNewFiles := ["keep.cfg"]
    downloadDatas := [{ localExists := true, remotePath := "keep.cfg", localPath := "keep.cfg",
                        remoteMD5 := "R", localMD5 := "L" }] }

end Main

namespace World

/-- The file operations (opening for writing, writing) recorded in the trace, in order. -/
def fileEvents (w : World) : List Event :=
  w.trace.filter (fun e => match e with
    | Event.openWrite _ => true
    | Event.write _ _ => true
    | _ => false)

end World

/-- A transport that fails every request. -/
def offlineEnv : Env :=
  { getGetResponse := fun _ _ _ => ⟨false, "Not Found"⟩
    sendRequest := fun _ _ => ⟨false, "Not Found"⟩
    getRootFromString := fun _ => Json.null
    getMD5Hash := toyDigest
    getFolderNames := fun _ => []
    getScanFolders := fun _ _ => []
    canOpen := plainDisk }

/-- A transport that answers every request with the body `fresh`. -/
def servingEnv : Env :=
  { getGetResponse := fun _ _ _ => ⟨true, "fresh"⟩
    sendRequest := fun _ _ => ⟨true, "fresh"⟩
    getRootFromString := fun _ => Json.null
    getMD5Hash := toyDigest
    getFolderNames := fun _ => []
    getScanFolders := fun _ _ => []
    canOpen := plainDisk }

/-- A disk holding `local/a.txt` and `a.txt`, both with the contents `old`. -/
def oldWorld : World :=
  { files := [("local/a.txt", "old"), ("a.txt", "old")], dirs := ["local/"], trace := [] }

namespace AutoUpdater

/-- A server whose configuration document cannot be fetched (non-success status), while the
listing, holding `b.txt`, and the file itself can. -/
def noConfigEnv : Env :=
  { getGetResponse := fun _ _ file =>
      if file = "files.php" then ⟨true, "LISTING"⟩
      else if file = "b.txt" then ⟨true, "remote b"⟩
      else ⟨false, "Not Found"⟩
    sendRequest := fun _ uri =>
      if uri = "srv/files.php" then ⟨true, "LISTING"⟩
      else if uri = "srv/b.txt" then ⟨true, "remote b"⟩
      else ⟨false, "Not Found"⟩
    getRootFromString := fun body =>
      if body = "LISTING" then
        Json.arr [Json.obj [("path", Json.str "b.txt"), ("md5", Json.str "Z")]]
      else Json.null
    getMD5Hash := toyDigest
    getFolderNames := fun _ => []
    getScanFolders := fun _ _ => []
    canOpen := plainDisk }

/-- A server whose configuration document is fetched with a success status and a body that is
no configuration document; the listing and the file are as in `noConfigEnv`. -/
def badConfigEnv : Env :=
  { noConfigEnv with
    getGetResponse := fun _ _ file =>
      if file = "config.json" then ⟨true, "<html>"⟩
      else if file = "files.php" then ⟨true, "LISTING"⟩
      else if file = "b.txt" then ⟨true, "remote b"⟩
      else ⟨false, "Not Found"⟩
    sendRequest := fun _ uri =>
      if uri = "srv/config.json" then ⟨true, "<html>"⟩
      else if uri = "srv/files.php" then ⟨true, "LISTING"⟩
      else if uri = "srv/b.txt" then ⟨true, "remote b"⟩
      else ⟨false, "Not Found"⟩ }

/-- A fresh updater for the host folder `/` and the local folder `local/`. -/
def freshUpdater : AutoUpdater :=
  AutoUpdater.new "host" "/" "local/" "config.json" "files.php"

end AutoUpdater

namespace AutoUpdater

end AutoUpdater

namespace AutoUpdater

/-- A server with the data folder `data/` and the excluded folder `docs/` that lists `a.txt`,
`b.txt` and `docs/c.txt`; every file is served with the contents whose digest is listed. -/
def syncEnv : Env :=
  { getGetResponse := fun _ _ file =>
      if file = "config.json" then ⟨true, "CONFIG"⟩
      else if file = "files.php" then ⟨true, "LISTING"⟩
      else if file = "data/a.txt" then ⟨true, "remote a"⟩
      else if file = "data/b.txt" then ⟨true, "remote b"⟩
      else if file = "data/docs/c.txt" then ⟨true, "remote c"⟩
      else ⟨false, "Not Found"⟩
    sendRequest := fun _ _ => ⟨false, "Not Found"⟩
    getRootFromString := fun body =>
      if body = "CONFIG" then
        Json.obj [("dataFolder", Json.str "data/"), ("excludedFiles", Json.arr []),
                  ("excludedFolders", Json.arr [Json.str "docs/"])]
      else if body = "LISTING" then
        Json.arr [Json.obj [("path", Json.str "data/a.txt"), ("md5", Json.str "md5:remote a")],
                  Json.obj [("path", Json.str "data/b.txt"), ("md5", Json.str "md5:remote b")],
                  Json.obj [("path", Json.str "data/docs/c.txt"),
                            ("md5", Json.str "md5:remote c")]]
      else Json.null
    getMD5Hash := toyDigest
    getFolderNames := fun _ => []
    getScanFolders := fun _ _ => []
    canOpen := plainDisk }

/-- A disk whose local folder `local/` holds `a.txt` with the contents `old`. -/
def staleWorld : World :=
  { files := [("local/a.txt", "old")], dirs := ["local/"], trace := [] }

end AutoUpdater

/-! ## The blocks of the per-file download procedures -/

namespace AutoUpdater

/-- The backup block of `startGetFile` (lines 191 to 198). -/
def backupPart (env : Env) (mLocalFolder : String) (mDownloadData : DownloadData)
    (w : World) : World :=
  if mDownloadData.existsLocally then
    let ofs := env.canOpen w (mLocalFolder ++ mDownloadData.path ++ ".bak")
    let w := w.openWrite (mLocalFolder ++ mDownloadData.path ++ ".bak") ofs
    let backupContents := w.getFileContents (mLocalFolder ++ mDownloadData.path)
    w.write (mLocalFolder ++ mDownloadData.path ++ ".bak") backupContents ofs
  else w

/-- The folder loop of `startGetFile` (line 200). -/
def foldersPart (env : Env) (mLocalFolder : String) (mDownloadData : DownloadData)
    (w : World) : World :=
  (env.getFolderNames mDownloadData.path).foldl
    (fun w folderName =>
      if !w.existsPath (mLocalFolder ++ folderName) then w.mkdir (mLocalFolder ++ folderName)
      else w) w

/-- The fetch and the write of the destination in `startGetFile` (lines 202 to 207). -/
def destPart (env : Env) (a : AutoUpdater) (mServerFolder mLocalFolder : String)
    (mDownloadData : DownloadData) (w : World) : World :=
  let serverContents := startGetFileContents env a "" (mServerFolder ++ mDownloadData.path)
  let ofs := env.canOpen w (mLocalFolder ++ mDownloadData.path)
  let w := w.openWrite (mLocalFolder ++ mDownloadData.path) ofs
  w.write (mLocalFolder ++ mDownloadData.path) serverContents ofs

end AutoUpdater

namespace Main

/-- The backup block of `download` (lines 54 to 61). -/
def backupPart (env : Env) (g : Globals) (mDownloadData : DownloadData) (w : World) : World :=
  if mDownloadData.localExists then
    let w := if !w.existsPath g.backupFolder then w.mkdir g.backupFolder else w
    let w := (getFolderNames env w mDownloadData.localPath).foldl
      (fun w f =>
        if !w.existsPath (g.backupFolder ++ f) then w.mkdir (g.backupFolder ++ f) else w) w
    let ofs := env.canOpen w (g.backupFolder ++ mDownloadData.localPath)
    let w := w.openWrite (g.backupFolder ++ mDownloadData.localPath) ofs
    w.write (g.backupFolder ++ mDownloadData.localPath)
      (w.getFileContents mDownloadData.localPath) ofs
  else w

/-- The folder loop of `download` (line 63). -/
def foldersPart (env : Env) (mDownloadData : DownloadData) (w : World) : World :=
  (getFolderNames env w mDownloadData.localPath).foldl
    (fun w f => if !w.existsPath f then w.mkdir f else w) w

/-- The write of the destination in `download` (lines 65 and 66). -/
def destPart (env : Env) (g : Globals) (mDownloadData : DownloadData) (w : World) : World :=
  let ofs := env.canOpen w mDownloadData.localPath
  let w := w.openWrite mDownloadData.localPath ofs
  w.write mDownloadData.localPath
    (downloadFileContents env g (g.hostMainFolder ++ mDownloadData.remotePath)) ofs

end Main

namespace AutoUpdater

end AutoUpdater

namespace AutoUpdater

/-- A disk on which `local/a.txt` is a directory. -/
def blockedWorld : World :=
  { files := [], dirs := ["local/", "local/a.txt"], trace := [] }

/-- A fresh updater whose local folder `local` lacks the closing separator. -/
def openEndedUpdater : AutoUpdater :=
  AutoUpdater.new "host" "/" "local" "config.json" "files.php"

end AutoUpdater
/-! ## Theorems: reconciliation -/

theorem startsWith_iff (s p : String) : startsWith s p = true ↔ p.data <+: s.data := by
  simp [startsWith]

theorem contains_iff (l : List String) (x : String) : contains l x = true ↔ x ∈ l := by
  simp [contains]

theorem foldl_flag (p : String) (l : List String) (b : Bool) :
    l.foldl (fun mc e => if startsWith p e then true else mc) b
      = (b || l.any (fun e => startsWith p e)) := by
  induction l generalizing b with
  | nil => simp
  | cons e l ih =>
    simp only [List.foldl_cons, List.any_cons, ih]
    by_cases h : startsWith p e = true
    · simp [h]
    · simp [h]

namespace AutoUpdater

theorem reconcileStep_eq (a : AutoUpdater) (s : FileData) :
    reconcileStep a s = { a with toDownload := (a.toDownload ++
      emitted a.serverExcludedFiles a.serverExcludedFolders a.localFiles s) } := by
  unfold reconcileStep emitted
  simp only [foldl_flag]
  by_cases h1 : contains a.serverExcludedFiles s.path = true
  · simp [h1]
  · by_cases h2 : (a.serverExcludedFolders.any (fun e => startsWith s.path e)) = true
    · simp [h1, h2]
    · simp only [h1, h2, Bool.false_eq_true, if_false, Bool.or_false, Bool.false_or]
      cases hf : a.localFiles.find? (fun l => FileData.same l s) with
      | none => simp
      | some l =>
        by_cases h3 : l.md5 = s.md5
        · simp [h3]
        · simp [h3]

theorem foldl_reconcileStep (l : List FileData) (a : AutoUpdater) :
    l.foldl reconcileStep a = { a with toDownload := (a.toDownload ++
      (l.map (emitted a.serverExcludedFiles a.serverExcludedFolders a.localFiles)).flatten) } := by
  induction l generalizing a with
  | nil => simp
  | cons s l ih =>
    rw [List.foldl_cons, ih, reconcileStep_eq]
    simp [List.append_assoc]

theorem reconcile_toDownload (a : AutoUpdater) :
    (reconcile a).toDownload = a.toDownload ++
      (a.serverFiles.map
        (emitted a.serverExcludedFiles a.serverExcludedFolders a.localFiles)).flatten := by
  unfold reconcile
  rw [foldl_reconcileStep]

end AutoUpdater

theorem flatten_map_ite {α β : Type} (c : α → Bool) (f : α → β) (l : List α) :
    (l.map (fun x => if c x = true then [f x] else [])).flatten = (l.filter c).map f := by
  induction l with
  | nil => simp
  | cons x l ih =>
    by_cases h : c x = true
    · simp [List.filter_cons, h, ih]
    · simp [List.filter_cons, h, ih]

theorem unique_of_nodup_paths {ls : List FileData} (hnd : (ls.map (fun l => l.path)).Nodup)
    {l l' : FileData} (hl : l ∈ ls) (hl' : l' ∈ ls) (hp : l.path = l'.path) : l = l' :=
  List.inj_on_of_nodup_map hnd hl hl' hp

namespace AutoUpdater

theorem emitted_eq_spec (a : AutoUpdater)
    (hnd : (a.localFiles.map (fun l => l.path)).Nodup) (s : FileData) :
    emitted a.serverExcludedFiles a.serverExcludedFolders a.localFiles s =
      if (decide (
        s.path ∉ a.serverExcludedFiles ∧
        (∀ e ∈ a.serverExcludedFolders, ¬ e.data <+: s.path.data) ∧
        ((∀ l ∈ a.localFiles, l.path ≠ s.path) ∨
          (∃ l ∈ a.localFiles, l.path = s.path ∧ l.md5 ≠ s.md5)))) = true
      then [{ path := s.path,
              existsLocally := decide (∃ l ∈ a.localFiles, l.path = s.path) }]
      else [] := by
  unfold emitted
  by_cases h1 : s.path ∈ a.serverExcludedFiles
  · simp [contains_iff, h1]
  by_cases h2 : ∃ e ∈ a.serverExcludedFolders, e.data <+: s.path.data
  · have : (a.serverExcludedFolders.any (fun e => startsWith s.path e)) = true := by
      obtain ⟨e, he, hpre⟩ := h2
      exact List.any_eq_true.mpr ⟨e, he, (startsWith_iff _ _).mpr hpre⟩
    have h2' : ¬ ∀ e ∈ a.serverExcludedFolders, ¬ e.data <+: s.path.data := by
      intro hall
      obtain ⟨e, he, hpre⟩ := h2
      exact hall e he hpre
    simp [this, h2']
  have h2a : (a.serverExcludedFolders.any (fun e => startsWith s.path e)) = false := by
    rw [Bool.eq_false_iff]
    intro hany
    obtain ⟨e, he, hpre⟩ := List.any_eq_true.mp hany
    exact h2 ⟨e, he, (startsWith_iff _ _).mp hpre⟩
  have h2b : ∀ e ∈ a.serverExcludedFolders, ¬ e.data <+: s.path.data :=
    fun e he hpre => h2 ⟨e, he, hpre⟩
  have h1' : contains a.serverExcludedFiles s.path = false := by
    rw [Bool.eq_false_iff]
    intro hc
    exact h1 ((contains_iff _ _).mp hc)
  simp only [h1', h2a, Bool.or_false, Bool.false_eq_true, if_false]
  cases hf : a.localFiles.find? (fun l => FileData.same l s) with
  | none =>
    have habs : ∀ l ∈ a.localFiles, l.path ≠ s.path := by
      intro l hl hp
      have := List.find?_eq_none.mp hf l hl
      simp [FileData.same, hp] at this
    have hno : ¬ ∃ l ∈ a.localFiles, l.path = s.path := by
      rintro ⟨l, hl, hp⟩
      exact habs l hl hp
    have hcond : (s.path ∉ a.serverExcludedFiles ∧
        (∀ e ∈ a.serverExcludedFolders, ¬ e.data <+: s.path.data) ∧
        ((∀ l ∈ a.localFiles, l.path ≠ s.path) ∨
          (∃ l ∈ a.localFiles, l.path = s.path ∧ l.md5 ≠ s.md5))) :=
      ⟨h1, h2b, Or.inl habs⟩
    show _ = _
    rw [if_pos (decide_eq_true hcond), decide_eq_false hno]
  | some l =>
    have hl : l ∈ a.localFiles := List.mem_of_find?_eq_some hf
    have hp : l.path = s.path := by
      have := List.find?_some hf
      simpa [FileData.same] using this
    have hex : ∃ l ∈ a.localFiles, l.path = s.path := ⟨l, hl, hp⟩
    have hnabs : ¬ ∀ l ∈ a.localFiles, l.path ≠ s.path := fun hall => hall l hl hp
    by_cases h3 : l.md5 = s.md5
    · have hnd2 : ¬ ∃ l ∈ a.localFiles, l.path = s.path ∧ l.md5 ≠ s.md5 := by
        rintro ⟨l', hl', hp', hm'⟩
        have : l' = l := unique_of_nodup_paths hnd hl' hl (hp'.trans hp.symm)
        exact hm' (this ▸ h3)
      have hcond : ¬ (s.path ∉ a.serverExcludedFiles ∧
          (∀ e ∈ a.serverExcludedFolders, ¬ e.data <+: s.path.data) ∧
          ((∀ l ∈ a.localFiles, l.path ≠ s.path) ∨
            (∃ l ∈ a.localFiles, l.path = s.path ∧ l.md5 ≠ s.md5))) := by
        rintro ⟨-, -, h | h⟩
        · exact hnabs h
        · exact hnd2 h
      show (if l.md5 = s.md5 then [] else _) = _
      rw [if_pos h3, if_neg (by simpa using hcond)]
    · have hcond : (s.path ∉ a.serverExcludedFiles ∧
          (∀ e ∈ a.serverExcludedFolders, ¬ e.data <+: s.path.data) ∧
          ((∀ l ∈ a.localFiles, l.path ≠ s.path) ∨
            (∃ l ∈ a.localFiles, l.path = s.path ∧ l.md5 ≠ s.md5))) :=
        ⟨h1, h2b, Or.inr ⟨l, hl, hp, h3⟩⟩
      show (if l.md5 = s.md5 then [] else _) = _
      rw [if_neg h3, if_pos (decide_eq_true hcond), decide_eq_true hex]

/-- C1. Reconciliation in `AutoUpdater::run`, started with an empty `toDownload`: when the
local file list has unique paths, `toDownload` is exactly the server file list, in listing
order, restricted to the entries that are neither excluded by file nor by folder and that are
absent locally (emitted with `existsLocally = false`) or present locally with a different md5
(emitted with `existsLocally = true`); entries present with an equal md5 emit nothing. -/
theorem reconcile_eq_expectedPlan (a : AutoUpdater) (hempty : a.toDownload = [])
    (hnd : (a.localFiles.map (fun l => l.path)).Nodup) :
    (reconcile a).toDownload = expectedPlan a := by
  rw [reconcile_toDownload, hempty, List.nil_append, expectedPlan,
    ← flatten_map_ite]
  congr 1
  apply List.map_congr_left
  intro s _
  exact emitted_eq_spec a hnd s

end AutoUpdater

namespace AutoUpdater

/-- Witness of C1: the example scenario yields the plan `a.txt` (exists locally), `b.txt`
(absent locally); `docs/c.txt` is left out. -/
theorem reconcile_eq_expectedPlan_witness :
    exampleUpdater.toDownload = [] ∧
    (exampleUpdater.localFiles.map (fun l => l.path)).Nodup ∧
    (reconcile exampleUpdater).toDownload
      = [{ path := "a.txt", existsLocally := true }, { path := "b.txt", existsLocally := false }] :=
  ⟨rfl, by decide,
    (reconcile_eq_expectedPlan exampleUpdater rfl (by decide)).trans (by decide)⟩

/-- C9, as the code behaves. The reconciliation loop appends to `toDownload` and never clears
it: for fixed lists the tasks one call appends depend on the lists only, not on what
`toDownload` held before, so a second call in succession appends the same tasks in the same
order once more, after those of the first call. -/
theorem reconcile_twice_appends (a : AutoUpdater) :
    (reconcile a).toDownload
        = a.toDownload ++ (reconcile { a with toDownload := [] }).toDownload ∧
    (reconcile (reconcile a)).toDownload
        = (reconcile a).toDownload ++ (reconcile { a with toDownload := [] }).toDownload := by
  have hfields : (reconcile a).serverFiles = a.serverFiles ∧
      (reconcile a).serverExcludedFiles = a.serverExcludedFiles ∧
      (reconcile a).serverExcludedFolders = a.serverExcludedFolders ∧
      (reconcile a).localFiles = a.localFiles := by
    unfold reconcile
    rw [foldl_reconcileStep]
    exact ⟨rfl, rfl, rfl, rfl⟩
  constructor
  · rw [reconcile_toDownload, reconcile_toDownload]
    simp
  · rw [reconcile_toDownload (reconcile a), reconcile_toDownload { a with toDownload := [] },
      hfields.1, hfields.2.1, hfields.2.2.1, hfields.2.2.2]
    simp

/-- Counterexample to C9 as stated: on the example scenario the second call in succession
leaves four tasks in `toDownload`, not the two it held after the first call. -/
theorem reconcile_twice_differs :
    (reconcile (reconcile exampleUpdater)).toDownload ≠ (reconcile exampleUpdater).toDownload ∧
    (reconcile (reconcile exampleUpdater)).toDownload
      = [{ path := "a.txt", existsLocally := true }, { path := "b.txt", existsLocally := false },
         { path := "a.txt", existsLocally := true }, { path := "b.txt", existsLocally := false }] := by
  decide

end AutoUpdater

/-! ## Theorems: traces -/

namespace World

@[simp] theorem downloadCalls_openWrite (w : World) (p : String) (good : Bool) :
    (w.openWrite p good).downloadCalls = w.downloadCalls := by
  cases good <;> simp [downloadCalls, openWrite, List.filterMap_append]

@[simp] theorem downloadCalls_write (w : World) (p c : String) (good : Bool) :
    (w.write p c good).downloadCalls = w.downloadCalls := by
  cases good <;> simp [downloadCalls, write, List.filterMap_append]

@[simp] theorem downloadCalls_mkdir (w : World) (p : String) :
    (w.mkdir p).downloadCalls = w.downloadCalls := by
  simp [downloadCalls, mkdir, List.filterMap_append]

@[simp] theorem downloadCalls_record_download (w : World) (d : Main.DownloadData) :
    (w.record (Event.download d)).downloadCalls = w.downloadCalls ++ [d] := by
  simp [downloadCalls, record, List.filterMap_append]

theorem downloadCalls_foldl_mkdir (f : String → String) (l : List String) (w : World) :
    (l.foldl (fun w x => if (!w.existsPath (f x)) = true then w.mkdir (f x) else w) w).downloadCalls
      = w.downloadCalls := by
  induction l generalizing w with
  | nil => rfl
  | cons x l ih =>
    rw [List.foldl_cons, ih]
    split <;> simp

end World

namespace Main

theorem download_downloadCalls (env : Env) (g : Globals) (d : DownloadData) (w : World) :
    (download env g d w).downloadCalls = w.downloadCalls ++ [d] := by
  unfold download
  simp only [World.downloadCalls_write, World.downloadCalls_openWrite]
  rw [World.downloadCalls_foldl_mkdir (fun x => x)]
  split
  · simp only [World.downloadCalls_write, World.downloadCalls_openWrite]
    rw [World.downloadCalls_foldl_mkdir (fun x => g.backupFolder ++ x)]
    split <;> simp
  · simp

/-- The entries `processDownloads` hands to `download`. -/
theorem processDownloads_downloadCalls (env : Env) (g : Globals) (w : World) :
    (processDownloads env g w).downloadCalls
      = w.downloadCalls ++ g.downloadDatas.filter (reachesDownload g) := by
  unfold processDownloads
  generalize g.downloadDatas = l
  induction l generalizing w with
  | nil => simp
  | cons d l ih =>
    rw [List.foldl_cons, ih]
    unfold processDownloadsStep
    by_cases h1 : (d.localExists && d.localMD5 == d.remoteMD5) = true
    · have hr : reachesDownload g d = false := by simp [reachesDownload, h1]
      rw [if_pos h1, List.filter_cons, hr]
      simp
    · by_cases h2 : (d.localExists && contains g.remoteOnlyNewFiles d.remotePath) = true
      · have hr : reachesDownload g d = false := by simp [reachesDownload, h2]
        rw [if_neg h1, if_pos h2, List.filter_cons, hr]
        simp
      · have hr : reachesDownload g d = true := by
          rw [Bool.not_eq_true] at h1 h2
          simp [reachesDownload, h1, h2]
        rw [if_neg h1, if_neg h2, List.filter_cons, hr, download_downloadCalls]
        simp

/-- C4. Retention dominance in `processDownloads`: an entry with `localExists = true` whose
`remotePath` is in `remoteOnlyNewFiles` is never handed to `download`, whatever its two MD5
values are: its loop iteration leaves the world as it is, and the whole loop adds no call of
`download` for it. -/
theorem processDownloads_retention (env : Env) (g : Globals) (w : World) (d : DownloadData)
    (hex : d.localExists = true) (hnew : d.remotePath ∈ g.remoteOnlyNewFiles)
    (hw : d ∉ w.downloadCalls) :
    processDownloadsStep env g w d = w ∧ d ∉ (processDownloads env g w).downloadCalls := by
  have hc : contains g.remoteOnlyNewFiles d.remotePath = true := (contains_iff _ _).mpr hnew
  constructor
  · unfold processDownloadsStep
    simp [hex, hc]
  · rw [processDownloads_downloadCalls, List.mem_append]
    rintro (h | h)
    · exact hw h
    · rw [List.mem_filter] at h
      simp [reachesDownload, hex, hc] at h

end Main

namespace Main

/-- Witness of C4: `keep.cfg` exists locally with a digest different from the server's and is
named in `remoteOnlyNewFiles`; no call of `download` is made. -/
theorem processDownloads_retention_witness :
    processDownloadsStep upToDateEnv retainingGlobals World.empty
        { localExists := true, remotePath := "keep.cfg", localPath := "keep.cfg",
          remoteMD5 := "R", localMD5 := "L" } = World.empty ∧
    ({ localExists := true, remotePath := "keep.cfg", localPath := "keep.cfg",
       remoteMD5 := "R", localMD5 := "L" } : DownloadData)
      ∉ (processDownloads upToDateEnv retainingGlobals World.empty).downloadCalls :=
  processDownloads_retention upToDateEnv retainingGlobals World.empty _ rfl (by decide)
    (by decide)

/-- C2, the code at a failing input. The remote configuration excludes the file `a.txt` and the
folder `docs/`; the listing holds `a.txt` and `docs/c.txt`, both absent locally.
`loadRemoteConfig` stores the two exclusion lists, and `processDownloads` calls `download`
for both entries all the same (first conjuncts: the whole pipeline; last conjunct:
`processDownloads` alone on a well-formed record of the excluded `a.txt`). -/
theorem excluded_entries_are_downloaded :
    (loadRemoteConfig excludingEnv configured).remoteExcludedFiles = ["a.txt"] ∧
    (loadRemoteConfig excludingEnv configured).remoteExcludedFolders = ["docs/"] ∧
    ((processDownloads excludingEnv
        (loadRemoteScript excludingEnv World.empty (loadRemoteConfig excludingEnv configured))
        World.empty).downloadCalls.map (fun d => d.remotePath)) = ["a.txt", "docs/c.txt"] ∧
    (processDownloads excludingEnv
        { loadRemoteConfig excludingEnv configured with
          downloadDatas := [{ localExists := false, remotePath := "a.txt", localPath := "a.txt",
                              remoteMD5 := "Y", localMD5 := "" }] }
        World.empty).files = [("a.txt", "remote a")] := by
  decide

/-- C3, the code at a failing input. The local file `a.txt` exists and its digest equals the
digest of the listing; `loadRemoteScript` stores the listing digest as `localPath` and the
local path as `remoteMD5`, the comparison of `processDownloads` fails, and `download` is
called: a backup is written and the fetched bytes go to a file named after the digest. -/
theorem up_to_date_entry_is_downloaded :
    upToDateEnv.getMD5Hash (upToDateWorld.getFileContents "a.txt") = "md5:same" ∧
    (loadRemoteScript upToDateEnv upToDateWorld
        (loadRemoteConfig upToDateEnv configured)).downloadDatas
      = [{ localExists := true, remotePath := "a.txt", localPath := "md5:same",
           remoteMD5 := "a.txt", localMD5 := "md5:same" }] ∧
    (processDownloads upToDateEnv
        (loadRemoteScript upToDateEnv upToDateWorld (loadRemoteConfig upToDateEnv configured))
        upToDateWorld).downloadCalls
      = [{ localExists := true, remotePath := "a.txt", localPath := "md5:same",
           remoteMD5 := "a.txt", localMD5 := "md5:same" }] ∧
    (processDownloads upToDateEnv
        (loadRemoteScript upToDateEnv upToDateWorld (loadRemoteConfig upToDateEnv configured))
        upToDateWorld).files
      = [("a.txt", "same"), ("_BACKUP/md5:same", ""), ("md5:same", "same")] := by
  decide

/-- C10, the code at a failing input. For the listing entry `data/bin/tool` with digest `M`,
whose computed local path is `app/tool`, the record pushed by `loadRemoteScript` has
`localPath = "M"` and `remoteMD5 = "app/tool"`; `download` then writes the fetched bytes to
the file `M`, and `app/tool` keeps its old contents. -/
theorem record_fields_are_swapped :
    computeLocalPath (loadRemoteConfig mappingEnv mappingConfigured) "data/bin/tool"
      = "app/tool" ∧
    (loadRemoteScript mappingEnv mappingWorld
        (loadRemoteConfig mappingEnv mappingConfigured)).downloadDatas
      = [{ localExists := true, remotePath := "data/bin/tool", localPath := "M",
           remoteMD5 := "app/tool", localMD5 := "md5:old tool" }] ∧
    (download mappingEnv (loadRemoteConfig mappingEnv mappingConfigured)
        { localExists := true, remotePath := "data/bin/tool", localPath := "M",
          remoteMD5 := "app/tool", localMD5 := "md5:old tool" } mappingWorld).files
      = [("app/tool", "old tool"), ("_BACKUP/M", ""), ("M", "new tool")] := by
  decide

end Main

/-! ## Theorems: file system -/

theorem append_bak_ne (p : String) : p ++ ".bak" ≠ p := by
  intro h
  have := congrArg String.length h
  simp [String.length_append] at this
  exact absurd this (by decide)

namespace World

theorem find_map_update_other (files : List (String × String)) (p c q : String) (hq : q ≠ p) :
    (files.map (fun f => if (f.1 == p) = true then (p, c) else f)).find? (fun f => f.1 == q)
      = files.find? (fun f => f.1 == q) := by
  induction files with
  | nil => rfl
  | cons f files ih =>
    rw [List.map_cons]
    by_cases hf : f.1 = p
    · have h1 : (f.1 == p) = true := by simp [hf]
      have h2 : ((p, c).1 == q) = false := by
        simp only [beq_eq_false_iff_ne]
        exact fun h => hq h.symm
      have h3 : (f.1 == q) = false := by
        simp only [beq_eq_false_iff_ne, hf]
        exact fun h => hq h.symm
      rw [if_pos h1, List.find?_cons, List.find?_cons]
      simp only [h2, h3, ih]
    · have h1 : ¬ (f.1 == p) = true := by simp [hf]
      rw [if_neg h1]
      rw [List.find?_cons, List.find?_cons]
      by_cases hfq : (f.1 == q) = true
      · simp only [hfq]
      · rw [Bool.not_eq_true] at hfq
        simp only [hfq, ih]

theorem find_map_update_same (files : List (String × String)) (p c : String)
    (h : (files.any (fun f => f.1 == p)) = true) :
    ((files.map (fun f => if (f.1 == p) = true then (p, c) else f)).find?
      (fun f => f.1 == p)).map (fun f => f.2) = some c := by
  induction files with
  | nil => simp at h
  | cons f files ih =>
    rw [List.map_cons]
    by_cases hf : (f.1 == p) = true
    · rw [if_pos hf, List.find?_cons]
      have hpp : ((p, c).1 == p) = true := by simp
      simp only [hpp, Option.map_some']
    · rw [if_neg hf, List.find?_cons]
      rw [Bool.not_eq_true] at hf
      simp only [hf]
      apply ih
      rw [List.any_cons] at h
      simpa [hf] using h

theorem find_setFile_same (files : List (String × String)) (p c : String) :
    ((setFile files p c).find? (fun f => f.1 == p)).map (fun f => f.2) = some c := by
  unfold setFile
  split
  · rename_i h
    exact find_map_update_same files p c h
  · rename_i h
    have hnone : files.find? (fun f => f.1 == p) = none := by
      rw [List.find?_eq_none]
      intro x hx hxp
      exact h (List.any_eq_true.mpr ⟨x, hx, hxp⟩)
    simp [List.find?_append, hnone]

theorem find_setFile_other (files : List (String × String)) (p c q : String) (hq : q ≠ p) :
    (setFile files p c).find? (fun f => f.1 == q) = files.find? (fun f => f.1 == q) := by
  unfold setFile
  split
  · exact find_map_update_other files p c q hq
  · have hpq : ¬ p = q := fun h => hq h.symm
    simp [List.find?_append, List.find?_cons, hpq]

@[simp] theorem lookup_record (w : World) (e : Event) (q : String) :
    (w.record e).lookup q = w.lookup q := rfl

@[simp] theorem lookup_mkdir (w : World) (p q : String) :
    (w.mkdir p).lookup q = w.lookup q := rfl

@[simp] theorem lookup_write_same (w : World) (p c : String) :
    (w.write p c true).lookup p = some c :=
  find_setFile_same w.files p c

@[simp] theorem lookup_openWrite_same (w : World) (p : String) :
    (w.openWrite p true).lookup p = some "" :=
  find_setFile_same w.files p ""

theorem lookup_write_other (w : World) (p c q : String) (good : Bool) (hq : q ≠ p) :
    (w.write p c good).lookup q = w.lookup q := by
  cases good
  · rfl
  · unfold lookup write
    simp only [if_true, find_setFile_other w.files p c q hq]

theorem lookup_openWrite_other (w : World) (p q : String) (good : Bool) (hq : q ≠ p) :
    (w.openWrite p good).lookup q = w.lookup q := by
  cases good
  · rfl
  · unfold lookup openWrite
    simp only [if_true, find_setFile_other w.files p "" q hq]

theorem lookup_foldl_mkdir (f : String → String) (l : List String) (w : World) (q : String) :
    (l.foldl (fun w x => if (!w.existsPath (f x)) = true then w.mkdir (f x) else w) w).lookup q
      = w.lookup q := by
  induction l generalizing w with
  | nil => rfl
  | cons x l ih =>
    rw [List.foldl_cons, ih]
    split <;> simp

@[simp] theorem fileEvents_record_download (w : World) (d : Main.DownloadData) :
    (w.record (Event.download d)).fileEvents = w.fileEvents := by
  simp [fileEvents, record, List.filter_append]

@[simp] theorem fileEvents_record_startGetFile (w : World) (d : DownloadData) :
    (w.record (Event.startGetFile d)).fileEvents = w.fileEvents := by
  simp [fileEvents, record, List.filter_append]

@[simp] theorem fileEvents_mkdir (w : World) (p : String) :
    (w.mkdir p).fileEvents = w.fileEvents := by
  simp [fileEvents, mkdir, List.filter_append]

@[simp] theorem fileEvents_openWrite (w : World) (p : String) :
    (w.openWrite p true).fileEvents = w.fileEvents ++ [Event.openWrite p] := by
  simp [fileEvents, openWrite, List.filter_append]

@[simp] theorem fileEvents_write (w : World) (p c : String) :
    (w.write p c true).fileEvents = w.fileEvents ++ [Event.write p c] := by
  simp [fileEvents, write, List.filter_append]

theorem fileEvents_foldl_mkdir (f : String → String) (l : List String) (w : World) :
    (l.foldl (fun w x => if (!w.existsPath (f x)) = true then w.mkdir (f x) else w) w).fileEvents
      = w.fileEvents := by
  induction l generalizing w with
  | nil => rfl
  | cons x l ih =>
    rw [List.foldl_cons, ih]
    split <;> simp

@[simp] theorem openFailures_record_download (w : World) (d : Main.DownloadData) :
    (w.record (Event.download d)).openFailures = w.openFailures := by
  simp [openFailures, record, List.filterMap_append]

@[simp] theorem openFailures_record_startGetFile (w : World) (d : DownloadData) :
    (w.record (Event.startGetFile d)).openFailures = w.openFailures := by
  simp [openFailures, record, List.filterMap_append]

@[simp] theorem openFailures_mkdir (w : World) (p : String) :
    (w.mkdir p).openFailures = w.openFailures := by
  simp [openFailures, mkdir, List.filterMap_append]

@[simp] theorem openFailures_write (w : World) (p c : String) (good : Bool) :
    (w.write p c good).openFailures = w.openFailures := by
  cases good <;> simp [openFailures, write, List.filterMap_append]

@[simp] theorem openFailures_openWrite_good (w : World) (p : String) :
    (w.openWrite p true).openFailures = w.openFailures := by
  simp [openFailures, openWrite, List.filterMap_append]

@[simp] theorem openFailures_openWrite_failed (w : World) (p : String) :
    (w.openWrite p false).openFailures = w.openFailures ++ [p] := by
  simp [openFailures, openWrite, List.filterMap_append]

theorem openFailures_foldl_mkdir (f : String → String) (l : List String) (w : World) :
    (l.foldl (fun w x => if (!w.existsPath (f x)) = true then w.mkdir (f x) else w)
      w).openFailures = w.openFailures := by
  induction l generalizing w with
  | nil => rfl
  | cons x l ih =>
    rw [List.foldl_cons, ih]
    split <;> simp

/-- Opening a path and writing through the stream, whatever the outcome of the open, leaves
every other path as it was. -/
theorem lookup_openWrite_write_other (w : World) (p c q : String) (good : Bool) (hq : q ≠ p) :
    ((w.openWrite p good).write p c good).lookup q = w.lookup q := by
  rw [lookup_write_other _ _ _ _ _ hq, lookup_openWrite_other _ _ _ _ hq]

/-- Opening a path and writing through the stream adds one failure when the open fails and
none when it succeeds. -/
theorem openFailures_openWrite_write (w : World) (p c : String) (good : Bool) :
    ((w.openWrite p good).write p c good).openFailures.length
      = w.openFailures.length + (if good = true then 0 else 1) := by
  cases good <;> simp

end World

/-! ## Theorems: the per-file download step -/

namespace AutoUpdater

theorem startGetFile_eq (env : Env) (a : AutoUpdater) (sf lf : String) (d : DownloadData)
    (w : World) :
    startGetFile env a sf lf d w
      = destPart env a sf lf d
          (foldersPart env lf d (backupPart env lf d (w.record (Event.startGetFile d)))) :=
  rfl

theorem backupPart_openFailures (env : Env) (lf : String) (d : DownloadData) (w : World) :
    w.openFailures.length ≤ (backupPart env lf d w).openFailures.length := by
  unfold backupPart
  split
  · simp only []
    rw [World.openFailures_openWrite_write]
    exact Nat.le_add_right _ _
  · exact Nat.le_refl _

theorem backupPart_of_no_failure (env : Env) (lf : String) (d : DownloadData) (w : World)
    (hex : d.existsLocally = true)
    (hno : (backupPart env lf d w).openFailures.length = w.openFailures.length) :
    (backupPart env lf d w).lookup (lf ++ d.path ++ ".bak")
        = some (w.getFileContents (lf ++ d.path)) ∧
    (backupPart env lf d w).fileEvents = w.fileEvents ++
      [Event.openWrite (lf ++ d.path ++ ".bak"),
       Event.write (lf ++ d.path ++ ".bak") (w.getFileContents (lf ++ d.path))] := by
  have hne : lf ++ d.path ≠ lf ++ d.path ++ ".bak" := fun h => append_bak_ne _ h.symm
  unfold backupPart at hno ⊢
  rw [if_pos hex] at hno ⊢
  simp only [] at hno ⊢
  rw [World.openFailures_openWrite_write] at hno
  cases hgood : env.canOpen w (lf ++ d.path ++ ".bak")
  · rw [hgood] at hno
    simp at hno
  · have hc : (w.openWrite (lf ++ d.path ++ ".bak") true).getFileContents (lf ++ d.path)
        = w.getFileContents (lf ++ d.path) := by
      unfold World.getFileContents
      rw [World.lookup_openWrite_other _ _ _ _ hne]
    rw [hc]
    constructor
    · exact World.lookup_write_same _ _ _
    · simp

theorem foldersPart_lookup (env : Env) (lf : String) (d : DownloadData) (w : World)
    (q : String) : (foldersPart env lf d w).lookup q = w.lookup q :=
  World.lookup_foldl_mkdir (fun x => lf ++ x) _ w q

theorem foldersPart_openFailures (env : Env) (lf : String) (d : DownloadData) (w : World) :
    (foldersPart env lf d w).openFailures = w.openFailures :=
  World.openFailures_foldl_mkdir (fun x => lf ++ x) _ w

theorem foldersPart_fileEvents (env : Env) (lf : String) (d : DownloadData) (w : World) :
    (foldersPart env lf d w).fileEvents = w.fileEvents :=
  World.fileEvents_foldl_mkdir (fun x => lf ++ x) _ w

theorem destPart_lookup_other (env : Env) (a : AutoUpdater) (sf lf : String)
    (d : DownloadData) (w : World) (q : String) (hq : q ≠ lf ++ d.path) :
    (destPart env a sf lf d w).lookup q = w.lookup q :=
  World.lookup_openWrite_write_other _ _ _ _ _ hq

theorem destPart_openFailures (env : Env) (a : AutoUpdater) (sf lf : String)
    (d : DownloadData) (w : World) :
    w.openFailures.length ≤ (destPart env a sf lf d w).openFailures.length := by
  unfold destPart
  simp only []
  rw [World.openFailures_openWrite_write]
  exact Nat.le_add_right _ _

theorem destPart_of_no_failure (env : Env) (a : AutoUpdater) (sf lf : String)
    (d : DownloadData) (w : World)
    (hno : (destPart env a sf lf d w).openFailures.length = w.openFailures.length) :
    (destPart env a sf lf d w).lookup (lf ++ d.path)
        = some (startGetFileContents env a "" (sf ++ d.path)) ∧
    (destPart env a sf lf d w).fileEvents = w.fileEvents ++
      [Event.openWrite (lf ++ d.path),
       Event.write (lf ++ d.path) (startGetFileContents env a "" (sf ++ d.path))] := by
  unfold destPart at hno ⊢
  simp only [] at hno ⊢
  rw [World.openFailures_openWrite_write] at hno
  cases hgood : env.canOpen w (lf ++ d.path)
  · rw [hgood] at hno
    simp at hno
  · constructor
    · exact World.lookup_write_same _ _ _
    · simp

theorem startGetFile_parts_no_failure (env : Env) (a : AutoUpdater) (sf lf : String)
    (d : DownloadData) (w : World)
    (hno : (startGetFile env a sf lf d w).openFailures.length = w.openFailures.length) :
    (backupPart env lf d (w.record (Event.startGetFile d))).openFailures.length
        = (w.record (Event.startGetFile d)).openFailures.length ∧
    (destPart env a sf lf d
        (foldersPart env lf d (backupPart env lf d (w.record (Event.startGetFile d))))
      ).openFailures.length
        = (foldersPart env lf d
            (backupPart env lf d (w.record (Event.startGetFile d)))).openFailures.length := by
  rw [startGetFile_eq] at hno
  have h1 := backupPart_openFailures env lf d (w.record (Event.startGetFile d))
  have h2 := destPart_openFailures env a sf lf d
    (foldersPart env lf d (backupPart env lf d (w.record (Event.startGetFile d))))
  rw [foldersPart_openFailures] at h2 ⊢
  rw [World.openFailures_record_startGetFile] at h1 ⊢
  omega

theorem startGetFile_lookup_dest (env : Env) (a : AutoUpdater) (sf lf : String)
    (d : DownloadData) (w : World)
    (hno : (startGetFile env a sf lf d w).openFailures.length = w.openFailures.length) :
    (startGetFile env a sf lf d w).lookup (lf ++ d.path)
      = some (startGetFileContents env a "" (sf ++ d.path)) := by
  rw [startGetFile_eq]
  exact (destPart_of_no_failure env a sf lf d _
    (startGetFile_parts_no_failure env a sf lf d w hno).2).1

theorem startGetFile_lookup_bak (env : Env) (a : AutoUpdater) (sf lf : String)
    (d : DownloadData) (w : World) (hex : d.existsLocally = true)
    (hno : (startGetFile env a sf lf d w).openFailures.length = w.openFailures.length) :
    (startGetFile env a sf lf d w).lookup (lf ++ d.path ++ ".bak")
      = some (w.getFileContents (lf ++ d.path)) := by
  have hne : lf ++ d.path ++ ".bak" ≠ lf ++ d.path := append_bak_ne _
  rw [startGetFile_eq, destPart_lookup_other _ _ _ _ _ _ _ hne, foldersPart_lookup,
    (backupPart_of_no_failure env lf d _ hex
      (startGetFile_parts_no_failure env a sf lf d w hno).1).1]
  rfl

theorem startGetFile_fileEvents (env : Env) (a : AutoUpdater) (sf lf : String)
    (d : DownloadData) (w : World) (hex : d.existsLocally = true)
    (hno : (startGetFile env a sf lf d w).openFailures.length = w.openFailures.length) :
    (startGetFile env a sf lf d w).fileEvents = w.fileEvents ++
      [Event.openWrite (lf ++ d.path ++ ".bak"),
       Event.write (lf ++ d.path ++ ".bak") (w.getFileContents (lf ++ d.path)),
       Event.openWrite (lf ++ d.path),
       Event.write (lf ++ d.path) (startGetFileContents env a "" (sf ++ d.path))] := by
  have hp := startGetFile_parts_no_failure env a sf lf d w hno
  rw [startGetFile_eq, (destPart_of_no_failure env a sf lf d _ hp.2).2,
    foldersPart_fileEvents, (backupPart_of_no_failure env lf d _ hex hp.1).2,
    World.fileEvents_record_startGetFile]
  have hc : (w.record (Event.startGetFile d)).getFileContents (lf ++ d.path)
      = w.getFileContents (lf ++ d.path) := rfl
  rw [hc]
  simp

end AutoUpdater

namespace Main

theorem download_eq (env : Env) (g : Globals) (d : DownloadData) (w : World) :
    download env g d w
      = destPart env g d (foldersPart env d (backupPart env g d (w.record (Event.download d)))) :=
  rfl

/-- The disk on which `download` opens the backup: the backup folder and the scanned folders
have been created. -/
theorem main_backupPart_eq (env : Env) (g : Globals) (d : DownloadData) (w : World)
    (hex : d.localExists = true) :
    ∃ w0 : World, (∀ q, w0.lookup q = w.lookup q) ∧ w0.openFailures = w.openFailures ∧
      w0.fileEvents = w.fileEvents ∧
      backupPart env g d w
        = (w0.openWrite (g.backupFolder ++ d.localPath)
              (env.canOpen w0 (g.backupFolder ++ d.localPath))).write
            (g.backupFolder ++ d.localPath)
            ((w0.openWrite (g.backupFolder ++ d.localPath)
              (env.canOpen w0 (g.backupFolder ++ d.localPath))).getFileContents d.localPath)
            (env.canOpen w0 (g.backupFolder ++ d.localPath)) := by
  have hm : ∀ (w1 : World),
      (∀ q, (if (!w1.existsPath g.backupFolder) = true then w1.mkdir g.backupFolder
        else w1).lookup q = w1.lookup q) ∧
      (if (!w1.existsPath g.backupFolder) = true then w1.mkdir g.backupFolder
        else w1).openFailures = w1.openFailures ∧
      (if (!w1.existsPath g.backupFolder) = true then w1.mkdir g.backupFolder
        else w1).fileEvents = w1.fileEvents := by
    intro w1
    split <;> simp
  refine ⟨(getFolderNames env
      (if (!w.existsPath g.backupFolder) = true then w.mkdir g.backupFolder else w)
      d.localPath).foldl
      (fun w f =>
        if (!w.existsPath (g.backupFolder ++ f)) = true then w.mkdir (g.backupFolder ++ f)
        else w)
      (if (!w.existsPath g.backupFolder) = true then w.mkdir g.backupFolder else w),
    ?_, ?_, ?_, ?_⟩
  · intro q
    rw [World.lookup_foldl_mkdir (fun x => g.backupFolder ++ x), (hm w).1]
  · rw [World.openFailures_foldl_mkdir (fun x => g.backupFolder ++ x), (hm w).2.1]
  · rw [World.fileEvents_foldl_mkdir (fun x => g.backupFolder ++ x), (hm w).2.2]
  · unfold backupPart
    rw [if_pos hex]

theorem main_backupPart_lookup_other (env : Env) (g : Globals) (d : DownloadData) (w : World)
    (q : String) (hbak : d.localExists = true → q ≠ g.backupFolder ++ d.localPath) :
    (backupPart env g d w).lookup q = w.lookup q := by
  by_cases hex : d.localExists = true
  · obtain ⟨w0, hl, -, -, heq⟩ := main_backupPart_eq env g d w hex
    rw [heq, World.lookup_openWrite_write_other _ _ _ _ _ (hbak hex), hl]
  · unfold backupPart
    rw [if_neg hex]

theorem main_backupPart_openFailures (env : Env) (g : Globals) (d : DownloadData) (w : World) :
    w.openFailures.length ≤ (backupPart env g d w).openFailures.length := by
  by_cases hex : d.localExists = true
  · obtain ⟨w0, -, hf, -, heq⟩ := main_backupPart_eq env g d w hex
    rw [heq, World.openFailures_openWrite_write, hf]
    exact Nat.le_add_right _ _
  · unfold backupPart
    rw [if_neg hex]

theorem main_backupPart_of_no_failure (env : Env) (g : Globals) (d : DownloadData) (w : World)
    (hex : d.localExists = true) (hne : g.backupFolder ++ d.localPath ≠ d.localPath)
    (hno : (backupPart env g d w).openFailures.length = w.openFailures.length) :
    (backupPart env g d w).lookup (g.backupFolder ++ d.localPath)
        = some (w.getFileContents d.localPath) ∧
    (backupPart env g d w).fileEvents = w.fileEvents ++
      [Event.openWrite (g.backupFolder ++ d.localPath),
       Event.write (g.backupFolder ++ d.localPath) (w.getFileContents d.localPath)] := by
  obtain ⟨w0, hl, hf, he, heq⟩ := main_backupPart_eq env g d w hex
  rw [heq] at hno ⊢
  rw [World.openFailures_openWrite_write, hf] at hno
  cases hgood : env.canOpen w0 (g.backupFolder ++ d.localPath)
  · rw [hgood] at hno
    simp at hno
  · have hc : (w0.openWrite (g.backupFolder ++ d.localPath) true).getFileContents d.localPath
        = w.getFileContents d.localPath := by
      unfold World.getFileContents
      rw [World.lookup_openWrite_other _ _ _ _ hne.symm, hl]
    rw [hc]
    constructor
    · exact World.lookup_write_same _ _ _
    · simp [he]

theorem main_foldersPart_lookup (env : Env) (d : DownloadData) (w : World) (q : String) :
    (foldersPart env d w).lookup q = w.lookup q :=
  World.lookup_foldl_mkdir (fun x => x) _ w q

theorem main_foldersPart_openFailures (env : Env) (d : DownloadData) (w : World) :
    (foldersPart env d w).openFailures = w.openFailures :=
  World.openFailures_foldl_mkdir (fun x => x) _ w

theorem main_foldersPart_fileEvents (env : Env) (d : DownloadData) (w : World) :
    (foldersPart env d w).fileEvents = w.fileEvents :=
  World.fileEvents_foldl_mkdir (fun x => x) _ w

theorem main_destPart_lookup_other (env : Env) (g : Globals) (d : DownloadData) (w : World)
    (q : String) (hq : q ≠ d.localPath) :
    (destPart env g d w).lookup q = w.lookup q :=
  World.lookup_openWrite_write_other _ _ _ _ _ hq

theorem main_destPart_openFailures (env : Env) (g : Globals) (d : DownloadData) (w : World) :
    w.openFailures.length ≤ (destPart env g d w).openFailures.length := by
  unfold destPart
  simp only []
  rw [World.openFailures_openWrite_write]
  exact Nat.le_add_right _ _

theorem main_destPart_of_no_failure (env : Env) (g : Globals) (d : DownloadData) (w : World)
    (hno : (destPart env g d w).openFailures.length = w.openFailures.length) :
    (destPart env g d w).lookup d.localPath
        = some (downloadFileContents env g (g.hostMainFolder ++ d.remotePath)) ∧
    (destPart env g d w).fileEvents = w.fileEvents ++
      [Event.openWrite d.localPath,
       Event.write d.localPath
         (downloadFileContents env g (g.hostMainFolder ++ d.remotePath))] := by
  unfold destPart at hno ⊢
  simp only [] at hno ⊢
  rw [World.openFailures_openWrite_write] at hno
  cases hgood : env.canOpen w d.localPath
  · rw [hgood] at hno
    simp at hno
  · constructor
    · exact World.lookup_write_same _ _ _
    · simp

theorem download_parts_no_failure (env : Env) (g : Globals) (d : DownloadData) (w : World)
    (hno : (download env g d w).openFailures.length = w.openFailures.length) :
    (backupPart env g d (w.record (Event.download d))).openFailures.length
        = (w.record (Event.download d)).openFailures.length ∧
    (destPart env g d
        (foldersPart env d (backupPart env g d (w.record (Event.download d))))
      ).openFailures.length
        = (foldersPart env d
            (backupPart env g d (w.record (Event.download d)))).openFailures.length := by
  rw [download_eq] at hno
  have h1 := main_backupPart_openFailures env g d (w.record (Event.download d))
  have h2 := main_destPart_openFailures env g d
    (foldersPart env d (backupPart env g d (w.record (Event.download d))))
  rw [main_foldersPart_openFailures] at h2 ⊢
  rw [World.openFailures_record_download] at h1 ⊢
  omega

theorem download_lookup_dest (env : Env) (g : Globals) (d : DownloadData) (w : World)
    (hno : (download env g d w).openFailures.length = w.openFailures.length) :
    (download env g d w).lookup d.localPath
      = some (downloadFileContents env g (g.hostMainFolder ++ d.remotePath)) := by
  rw [download_eq]
  exact (main_destPart_of_no_failure env g d _ (download_parts_no_failure env g d w hno).2).1

theorem download_lookup_other (env : Env) (g : Globals) (d : DownloadData) (w : World)
    (q : String) (hdest : q ≠ d.localPath)
    (hbak : d.localExists = true → q ≠ g.backupFolder ++ d.localPath) :
    (download env g d w).lookup q = w.lookup q := by
  rw [download_eq, main_destPart_lookup_other _ _ _ _ _ hdest, main_foldersPart_lookup,
    main_backupPart_lookup_other _ _ _ _ _ hbak, World.lookup_record]

theorem download_lookup_bak (env : Env) (g : Globals) (d : DownloadData) (w : World)
    (hex : d.localExists = true) (hne : g.backupFolder ++ d.localPath ≠ d.localPath)
    (hno : (download env g d w).openFailures.length = w.openFailures.length) :
    (download env g d w).lookup (g.backupFolder ++ d.localPath)
      = some (w.getFileContents d.localPath) := by
  rw [download_eq, main_destPart_lookup_other _ _ _ _ _ hne, main_foldersPart_lookup,
    (main_backupPart_of_no_failure env g d _ hex hne (download_parts_no_failure env g d w hno).1).1]
  rfl

theorem download_fileEvents (env : Env) (g : Globals) (d : DownloadData) (w : World)
    (hex : d.localExists = true) (hne : g.backupFolder ++ d.localPath ≠ d.localPath)
    (hno : (download env g d w).openFailures.length = w.openFailures.length) :
    (download env g d w).fileEvents = w.fileEvents ++
      [Event.openWrite (g.backupFolder ++ d.localPath),
       Event.write (g.backupFolder ++ d.localPath) (w.getFileContents d.localPath),
       Event.openWrite d.localPath,
       Event.write d.localPath
         (downloadFileContents env g (g.hostMainFolder ++ d.remotePath))] := by
  have hp := download_parts_no_failure env g d w hno
  rw [download_eq, (main_destPart_of_no_failure env g d _ hp.2).2, main_foldersPart_fileEvents,
    (main_backupPart_of_no_failure env g d _ hex hne hp.1).2, World.fileEvents_record_download]
  have hc : (w.record (Event.download d)).getFileContents d.localPath
      = w.getFileContents d.localPath := rfl
  rw [hc]
  simp

end Main

/-- C6. Backup before overwrite, in both variants: for a task whose local file exists, with
contents `c`, and whose fetch succeeds with body `b`, all writes succeeding (no open for
writing fails during the step), the per-file step opens and writes the backup
(`<localFolder><path>.bak` in `AutoUpdater::startGetFile`, `<backupFolder><localPath>` in
`download`, there under the condition that this is another path than the destination) before
it opens the destination; afterwards the backup holds `c` and the destination holds `b`. -/
theorem backup_before_overwrite :
    (∀ (env : Env) (a : AutoUpdater) (sf lf : String) (d : DownloadData) (w : World)
        (c b : String),
      d.existsLocally = true →
      w.lookup (lf ++ d.path) = some c →
      env.getGetResponse a.host a.hostFolder (sf ++ d.path) = ⟨true, b⟩ →
      (AutoUpdater.startGetFile env a sf lf d w).openFailures = w.openFailures →
      (AutoUpdater.startGetFile env a sf lf d w).lookup (lf ++ d.path ++ ".bak") = some c ∧
      (AutoUpdater.startGetFile env a sf lf d w).lookup (lf ++ d.path) = some b ∧
      (AutoUpdater.startGetFile env a sf lf d w).fileEvents = w.fileEvents ++
        [Event.openWrite (lf ++ d.path ++ ".bak"), Event.write (lf ++ d.path ++ ".bak") c,
         Event.openWrite (lf ++ d.path), Event.write (lf ++ d.path) b]) ∧
    (∀ (env : Env) (g : Main.Globals) (d : Main.DownloadData) (w : World) (c b : String),
      d.localExists = true →
      w.lookup d.localPath = some c →
      g.backupFolder ++ d.localPath ≠ d.localPath →
      env.sendRequest g.host (g.hostMainFolder ++ d.remotePath) = ⟨true, b⟩ →
      (Main.download env g d w).openFailures = w.openFailures →
      (Main.download env g d w).lookup (g.backupFolder ++ d.localPath) = some c ∧
      (Main.download env g d w).lookup d.localPath = some b ∧
      (Main.download env g d w).fileEvents = w.fileEvents ++
        [Event.openWrite (g.backupFolder ++ d.localPath),
         Event.write (g.backupFolder ++ d.localPath) c,
         Event.openWrite d.localPath, Event.write d.localPath b]) := by
  constructor
  · intro env a sf lf d w c b hex hfile hresp hopen
    have hno := congrArg List.length hopen
    have hc : w.getFileContents (lf ++ d.path) = c := by
      simp [World.getFileContents, hfile]
    have hb : AutoUpdater.startGetFileContents env a "" (sf ++ d.path) = b := by
      simp [AutoUpdater.startGetFileContents, hresp]
    refine ⟨?_, ?_, ?_⟩
    · rw [AutoUpdater.startGetFile_lookup_bak env a sf lf d w hex hno, hc]
    · rw [AutoUpdater.startGetFile_lookup_dest env a sf lf d w hno, hb]
    · rw [AutoUpdater.startGetFile_fileEvents env a sf lf d w hex hno, hc, hb]
  · intro env g d w c b hex hfile hne hresp hopen
    have hno := congrArg List.length hopen
    have hc : w.getFileContents d.localPath = c := by
      simp [World.getFileContents, hfile]
    have hb : Main.downloadFileContents env g (g.hostMainFolder ++ d.remotePath) = b := by
      simp [Main.downloadFileContents, hresp]
    refine ⟨?_, ?_, ?_⟩
    · rw [Main.download_lookup_bak env g d w hex hne hno, hc]
    · rw [Main.download_lookup_dest env g d w hno, hb]
    · rw [Main.download_fileEvents env g d w hex hne hno, hc, hb]

/-- Witness of C6: `a.txt` holds `old` and the server answers `fresh`; after the step the
backup holds `old` and the destination holds `fresh`, in both variants. -/
theorem backup_before_overwrite_witness :
    ((AutoUpdater.startGetFile servingEnv AutoUpdater.exampleUpdater "data/" "local/"
        { path := "a.txt", existsLocally := true } oldWorld).lookup
          ("local/" ++ "a.txt" ++ ".bak") = some "old" ∧
      (AutoUpdater.startGetFile servingEnv AutoUpdater.exampleUpdater "data/" "local/"
        { path := "a.txt", existsLocally := true } oldWorld).lookup
          ("local/" ++ "a.txt") = some "fresh") ∧
    ((Main.download servingEnv Main.configured
        { localExists := true, remotePath := "a.txt", localPath := "a.txt",
          remoteMD5 := "R", localMD5 := "L" } oldWorld).lookup
          ("_BACKUP/" ++ "a.txt") = some "old" ∧
      (Main.download servingEnv Main.configured
        { localExists := true, remotePath := "a.txt", localPath := "a.txt",
          remoteMD5 := "R", localMD5 := "L" } oldWorld).lookup "a.txt" = some "fresh") :=
  by
  have h1 := backup_before_overwrite.1 servingEnv AutoUpdater.exampleUpdater "data/" "local/"
    { path := "a.txt", existsLocally := true } oldWorld "old" "fresh" rfl (by decide) rfl
    (by decide)
  have h2 := backup_before_overwrite.2 servingEnv Main.configured
    { localExists := true, remotePath := "a.txt", localPath := "a.txt",
      remoteMD5 := "R", localMD5 := "L" } oldWorld "old" "fresh" rfl (by decide)
    (by decide) rfl (by decide)
  exact ⟨⟨h1.1, h1.2.1⟩, ⟨h2.1, h2.2.1⟩⟩

/-- C5, as the code behaves. When the transport answers the fetch of a task's remote file with
a non-success status and all writes succeed (no open for writing fails during the step), the
per-file step opens the destination for writing and writes the empty string: afterwards the
destination exists and is empty, in both variants, whatever it held before.  For a task
flagged as existing locally, the contents the destination had before the step are those of
the backup location afterwards. -/
theorem fetch_failure_empties_destination :
    (∀ (env : Env) (a : AutoUpdater) (sf lf : String) (d : DownloadData) (w : World),
      (env.getGetResponse a.host a.hostFolder (sf ++ d.path)).ok = false →
      (AutoUpdater.startGetFile env a sf lf d w).openFailures = w.openFailures →
      (AutoUpdater.startGetFile env a sf lf d w).lookup (lf ++ d.path) = some "" ∧
      (d.existsLocally = true →
        (AutoUpdater.startGetFile env a sf lf d w).lookup (lf ++ d.path ++ ".bak")
          = some (w.getFileContents (lf ++ d.path)))) ∧
    (∀ (env : Env) (g : Main.Globals) (d : Main.DownloadData) (w : World),
      (env.sendRequest g.host (g.hostMainFolder ++ d.remotePath)).ok = false →
      (Main.download env g d w).openFailures = w.openFailures →
      (Main.download env g d w).lookup d.localPath = some "" ∧
      (d.localExists = true → g.backupFolder ++ d.localPath ≠ d.localPath →
        (Main.download env g d w).lookup (g.backupFolder ++ d.localPath)
          = some (w.getFileContents d.localPath))) := by
  constructor
  · intro env a sf lf d w hresp hopen
    have hno := congrArg List.length hopen
    refine ⟨?_, fun hex => AutoUpdater.startGetFile_lookup_bak env a sf lf d w hex hno⟩
    rw [AutoUpdater.startGetFile_lookup_dest env a sf lf d w hno]
    simp [AutoUpdater.startGetFileContents, hresp]
  · intro env g d w hresp hopen
    have hno := congrArg List.length hopen
    refine ⟨?_, fun hex hne => Main.download_lookup_bak env g d w hex hne hno⟩
    rw [Main.download_lookup_dest env g d w hno]
    simp [Main.downloadFileContents, hresp]

/-- Witness of C5 as amended: with every request failing and every open succeeding, the
destination `a.txt` that held `old` is empty after the step, in both variants. -/
theorem fetch_failure_empties_destination_witness :
    (AutoUpdater.startGetFile offlineEnv AutoUpdater.exampleUpdater "data/" "local/"
        { path := "a.txt", existsLocally := true } oldWorld).lookup ("local/" ++ "a.txt")
      = some "" ∧
    (Main.download offlineEnv Main.configured
        { localExists := true, remotePath := "a.txt", localPath := "a.txt",
          remoteMD5 := "R", localMD5 := "L" } oldWorld).lookup "a.txt" = some "" :=
  ⟨(fetch_failure_empties_destination.1 offlineEnv AutoUpdater.exampleUpdater "data/" "local/"
      { path := "a.txt", existsLocally := true } oldWorld rfl (by decide)).1,
   (fetch_failure_empties_destination.2 offlineEnv Main.configured
      { localExists := true, remotePath := "a.txt", localPath := "a.txt",
        remoteMD5 := "R", localMD5 := "L" } oldWorld rfl (by decide)).1⟩

/-- Counterexample to C5 as stated: every request fails; the destination that held `old`
holds the empty string after the step, and a destination that did not exist before exists
afterwards (in both variants). -/
theorem fetch_failure_changes_destination :
    (oldWorld.lookup "local/a.txt" = some "old" ∧
      (AutoUpdater.startGetFile offlineEnv AutoUpdater.exampleUpdater "data/" "local/"
        { path := "a.txt", existsLocally := true } oldWorld).lookup "local/a.txt" = some "" ∧
      oldWorld.lookup "local/b.txt" = none ∧
      (AutoUpdater.startGetFile offlineEnv AutoUpdater.exampleUpdater "data/" "local/"
        { path := "b.txt", existsLocally := false } oldWorld).lookup "local/b.txt" = some "") ∧
    (oldWorld.lookup "a.txt" = some "old" ∧
      (Main.download offlineEnv Main.configured
        { localExists := true, remotePath := "a.txt", localPath := "a.txt",
          remoteMD5 := "R", localMD5 := "L" } oldWorld).lookup "a.txt" = some "" ∧
      oldWorld.lookup "b.txt" = none ∧
      (Main.download offlineEnv Main.configured
        { localExists := false, remotePath := "b.txt", localPath := "b.txt",
          remoteMD5 := "R", localMD5 := "" } oldWorld).lookup "b.txt" = some "") := by
  decide

/-- The write condition of C5 and C6 is needed in `download`, which creates the backup folder
and no folder below it: for the nested destination `docs/c.txt` on an empty disk the open
fails and nothing is written; for the existing `app/tool` the open of `_BACKUP/app/tool`
fails, no backup is written, and the destination is overwritten all the same. -/
theorem download_failed_opens :
    (Main.download offlineEnv Main.configured
        { localExists := false, remotePath := "docs/c.txt", localPath := "docs/c.txt",
          remoteMD5 := "W", localMD5 := "" } World.empty).files = [] ∧
    (Main.download offlineEnv Main.configured
        { localExists := false, remotePath := "docs/c.txt", localPath := "docs/c.txt",
          remoteMD5 := "W", localMD5 := "" } World.empty).openFailures = ["docs/c.txt"] ∧
    (Main.download servingEnv Main.configured
        { localExists := true, remotePath := "bin/tool", localPath := "app/tool",
          remoteMD5 := "M", localMD5 := "L" } Main.mappingWorld).files
      = [("app/tool", "fresh")] ∧
    (Main.download servingEnv Main.configured
        { localExists := true, remotePath := "bin/tool", localPath := "app/tool",
          remoteMD5 := "M", localMD5 := "L" } Main.mappingWorld).openFailures
      = ["_BACKUP/app/tool"] := by
  decide

/-! ## Theorems: the whole run -/

namespace World

@[simp] theorem startGetFileCalls_openWrite (w : World) (p : String) (good : Bool) :
    (w.openWrite p good).startGetFileCalls = w.startGetFileCalls := by
  cases good <;> simp [startGetFileCalls, openWrite, List.filterMap_append]

@[simp] theorem startGetFileCalls_write (w : World) (p c : String) (good : Bool) :
    (w.write p c good).startGetFileCalls = w.startGetFileCalls := by
  cases good <;> simp [startGetFileCalls, write, List.filterMap_append]

@[simp] theorem startGetFileCalls_mkdir (w : World) (p : String) :
    (w.mkdir p).startGetFileCalls = w.startGetFileCalls := by
  simp [startGetFileCalls, mkdir, List.filterMap_append]

@[simp] theorem startGetFileCalls_record (w : World) (d : DownloadData) :
    (w.record (Event.startGetFile d)).startGetFileCalls = w.startGetFileCalls ++ [d] := by
  simp [startGetFileCalls, record, List.filterMap_append]

theorem startGetFileCalls_foldl_mkdir (f : String → String) (l : List String) (w : World) :
    (l.foldl (fun w x => if (!w.existsPath (f x)) = true then w.mkdir (f x) else w)
      w).startGetFileCalls = w.startGetFileCalls := by
  induction l generalizing w with
  | nil => rfl
  | cons x l ih =>
    rw [List.foldl_cons, ih]
    split <;> simp

end World

namespace AutoUpdater

theorem startGetFile_calls (env : Env) (a : AutoUpdater) (sf lf : String)
    (d : DownloadData) (w : World) :
    (startGetFile env a sf lf d w).startGetFileCalls = w.startGetFileCalls ++ [d] := by
  unfold startGetFile
  simp only [World.startGetFileCalls_write, World.startGetFileCalls_openWrite]
  rw [World.startGetFileCalls_foldl_mkdir (fun x => lf ++ x)]
  split <;> simp

theorem startDownload_calls (env : Env) (a : AutoUpdater) (sf lf : String)
    (l : List DownloadData) (w : World) :
    (startDownload env a sf lf l w).startGetFileCalls = w.startGetFileCalls ++ l := by
  unfold startDownload
  induction l generalizing w with
  | nil => simp
  | cons d l ih =>
    rw [List.foldl_cons, ih, startGetFile_calls]
    simp

theorem run_calls (env : Env) (a : AutoUpdater) (w : World) :
    (run env a w).2.startGetFileCalls = w.startGetFileCalls ++ (run env a w).1.toDownload := by
  unfold run
  simp only []
  have hm : ∀ (p : String),
      (if (!w.existsPath p) = true then w.mkdir p else w).startGetFileCalls
        = w.startGetFileCalls := by
    intro p
    split <;> simp
  split
  · unfold runDownload
    rw [startDownload_calls, hm]
  · rename_i h
    have : (reconcile (runGetServerData env w a)).toDownload = [] := by
      simpa using h
    rw [this, hm]
    simp

theorem emitted_of_absent (ls : List FileData) (s : FileData)
    (habs : ∀ l ∈ ls, l.path ≠ s.path) :
    emitted [] [] ls s = [{ path := s.path, existsLocally := false }] := by
  have hf : ls.find? (fun l => FileData.same l s) = none := by
    rw [List.find?_eq_none]
    intro l hl hsame
    exact habs l hl (by simpa [FileData.same] using hsame)
  simp [emitted, contains, hf]

end AutoUpdater

namespace AutoUpdater

/-- C8, as the code behaves. A configuration fetch that returns a non-success status does not
stop the run.  In `AutoUpdater::run`, started on a fresh updater, the data folder is then
empty and so are the two exclusion lists; the listing is reconciled all the same, every
listed path that is absent locally is planned, and `startGetFile` runs for every planned
task.  In `main.cpp`, `loadRemoteConfig` then reads the empty string as its configuration
and `processDownloads` goes on to call `download` for every record that reaches its last
branch. -/
theorem unreadable_config_is_not_fatal :
    (∀ (env : Env) (mHost mHostFolder mLocalFolder hostConfigFile hostScript : String)
        (w : World),
      (env.getGetResponse mHost mHostFolder hostConfigFile).ok = false →
      (run env (AutoUpdater.new mHost mHostFolder mLocalFolder hostConfigFile hostScript)
          w).1.serverFolder = "" ∧
      (run env (AutoUpdater.new mHost mHostFolder mLocalFolder hostConfigFile hostScript)
          w).1.serverExcludedFiles = [] ∧
      (run env (AutoUpdater.new mHost mHostFolder mLocalFolder hostConfigFile hostScript)
          w).1.serverExcludedFolders = [] ∧
      (∀ s ∈ (run env (AutoUpdater.new mHost mHostFolder mLocalFolder hostConfigFile
            hostScript) w).1.serverFiles,
        (∀ l ∈ (run env (AutoUpdater.new mHost mHostFolder mLocalFolder hostConfigFile
            hostScript) w).1.localFiles, l.path ≠ s.path) →
        ({ path := s.path, existsLocally := false } : DownloadData) ∈
          (run env (AutoUpdater.new mHost mHostFolder mLocalFolder hostConfigFile
            hostScript) w).1.toDownload) ∧
      (run env (AutoUpdater.new mHost mHostFolder mLocalFolder hostConfigFile hostScript)
          w).2.startGetFileCalls
        = w.startGetFileCalls ++
          (run env (AutoUpdater.new mHost mHostFolder mLocalFolder hostConfigFile hostScript)
            w).1.toDownload) ∧
    (∀ (env : Env) (g : Main.Globals) (w : World),
      (env.sendRequest g.host (g.hostMainFolder ++ g.hostMainConfig)).ok = false →
      (Main.loadRemoteConfig env g).remoteDataFolder
        = Json.getValue (env.getRootFromString "") "dataFolder" ∧
      (Main.processDownloads env
          (Main.loadRemoteScript env w (Main.loadRemoteConfig env g)) w).downloadCalls
        = w.downloadCalls ++
          (Main.loadRemoteScript env w (Main.loadRemoteConfig env g)).downloadDatas.filter
            (Main.reachesDownload
              (Main.loadRemoteScript env w (Main.loadRemoteConfig env g)))) := by
  constructor
  · intro env mHost mHostFolder mLocalFolder hostConfigFile hostScript w hresp
    have hroot : startGetJsonRoot env
        (AutoUpdater.new mHost mHostFolder mLocalFolder hostConfigFile hostScript)
        Json.null hostConfigFile = Json.null := by
      simp [startGetJsonRoot, AutoUpdater.new, hresp]
    have hfields : ∀ (a : AutoUpdater),
        (reconcile a).serverFolder = a.serverFolder ∧
        (reconcile a).serverExcludedFiles = a.serverExcludedFiles ∧
        (reconcile a).serverExcludedFolders = a.serverExcludedFolders ∧
        (reconcile a).serverFiles = a.serverFiles ∧
        (reconcile a).localFiles = a.localFiles := by
      intro a
      unfold reconcile
      rw [foldl_reconcileStep]
      exact ⟨rfl, rfl, rfl, rfl, rfl⟩
    have hrun : (run env
        (AutoUpdater.new mHost mHostFolder mLocalFolder hostConfigFile hostScript) w).1
        = reconcile (runGetServerData env w
            (AutoUpdater.new mHost mHostFolder mLocalFolder hostConfigFile hostScript)) := rfl
    have hsf : (runGetServerData env w
        (AutoUpdater.new mHost mHostFolder mLocalFolder hostConfigFile hostScript)).serverFolder
        = "" := by
      show Json.getValue (startGetJsonRoot env _ Json.null hostConfigFile) "dataFolder" = ""
      rw [hroot]
      rfl
    have hxf : (runGetServerData env w
        (AutoUpdater.new mHost mHostFolder mLocalFolder hostConfigFile
          hostScript)).serverExcludedFiles = [] := by
      show Json.getArray (startGetJsonRoot env _ Json.null hostConfigFile) "excludedFiles" = []
      rw [hroot]
      rfl
    have hxd : (runGetServerData env w
        (AutoUpdater.new mHost mHostFolder mLocalFolder hostConfigFile
          hostScript)).serverExcludedFolders = [] := by
      show Json.getArray (startGetJsonRoot env _ Json.null hostConfigFile) "excludedFolders"
        = []
      rw [hroot]
      rfl
    have htd : (runGetServerData env w
        (AutoUpdater.new mHost mHostFolder mLocalFolder hostConfigFile
          hostScript)).toDownload = [] := rfl
    refine ⟨?_, ?_, ?_, ?_, run_calls env _ w⟩
    · rw [hrun, (hfields _).1, hsf]
    · rw [hrun, (hfields _).2.1, hxf]
    · rw [hrun, (hfields _).2.2.1, hxd]
    · rw [hrun, (hfields _).2.2.2.1, (hfields _).2.2.2.2, reconcile_toDownload, htd, hxf, hxd]
      intro s hs habs
      rw [List.nil_append, List.mem_flatten]
      refine ⟨_, List.mem_map.mpr ⟨s, hs, rfl⟩, ?_⟩
      rw [emitted_of_absent _ s habs]
      exact List.mem_singleton.mpr rfl
  · intro env g w hresp
    refine ⟨?_, Main.processDownloads_downloadCalls env _ w⟩
    simp [Main.loadRemoteConfig, Main.downloadFileContents, hresp]

/-- Witness of C8 as amended: the configuration fetch fails, the listing holds `b.txt`, the
disk is empty; `b.txt` is planned and `startGetFile` runs for it. -/
theorem unreadable_config_is_not_fatal_witness :
    (noConfigEnv.getGetResponse "host" "/" "config.json").ok = false ∧
    (run noConfigEnv freshUpdater World.empty).2.startGetFileCalls
      = World.empty.startGetFileCalls ++ (run noConfigEnv freshUpdater World.empty).1.toDownload ∧
    (Main.loadRemoteConfig noConfigEnv Main.configured).remoteDataFolder
      = Json.getValue (noConfigEnv.getRootFromString "") "dataFolder" :=
  ⟨rfl,
   (unreadable_config_is_not_fatal.1 noConfigEnv "host" "/" "local/" "config.json" "files.php"
      World.empty rfl).2.2.2.2,
   (unreadable_config_is_not_fatal.2 noConfigEnv Main.configured World.empty rfl).1⟩

/-- Counterexample to C8 as stated: the configuration fetch returns a non-success status (or,
second half, a body that is no configuration document); the run plans `b.txt`, runs its
task and writes the local file; the standalone updater calls `download` as well and writes a
file. -/
theorem unreadable_config_run_downloads :
    ((noConfigEnv.getGetResponse "host" "/" "config.json").ok = false ∧
      (run noConfigEnv freshUpdater World.empty).1.toDownload
        = [{ path := "b.txt", existsLocally := false }] ∧
      (run noConfigEnv freshUpdater World.empty).2.startGetFileCalls
        = [{ path := "b.txt", existsLocally := false }] ∧
      (run noConfigEnv freshUpdater World.empty).2.files = [("local/b.txt", "remote b")] ∧
      (noConfigEnv.sendRequest "host" "srv/config.json").ok = false ∧
      ((Main.processDownloads noConfigEnv
          (Main.loadRemoteScript noConfigEnv World.empty
            (Main.loadRemoteConfig noConfigEnv Main.configured))
          World.empty).downloadCalls.map (fun d => d.remotePath)) = ["b.txt"] ∧
      (Main.processDownloads noConfigEnv
          (Main.loadRemoteScript noConfigEnv World.empty
            (Main.loadRemoteConfig noConfigEnv Main.configured))
          World.empty).files ≠ []) ∧
    ((run badConfigEnv freshUpdater World.empty).1.toDownload
        = [{ path := "b.txt", existsLocally := false }] ∧
      (run badConfigEnv freshUpdater World.empty).2.files = [("local/b.txt", "remote b")]) := by
  decide

end AutoUpdater

/-! ## Theorems: convergence -/

namespace AutoUpdater

end AutoUpdater

namespace AutoUpdater

end AutoUpdater

namespace AutoUpdater

end AutoUpdater

namespace AutoUpdater

/-- The write condition of C7 as amended is needed: when `local/a.txt` is a directory, the
open of the destination fails, the unchecked stream writes nothing, and the second run plans
`a.txt` again. -/
theorem second_run_after_failed_open :
    (run syncEnv freshUpdater blockedWorld).1.toDownload
      = [{ path := "a.txt", existsLocally := false }, { path := "b.txt", existsLocally := false }] ∧
    (run syncEnv freshUpdater blockedWorld).2.openFailures = ["local/a.txt"] ∧
    (run syncEnv freshUpdater blockedWorld).2.files = [("local/b.txt", "remote b")] ∧
    (run syncEnv freshUpdater (run syncEnv freshUpdater blockedWorld).2).1.toDownload
      = [{ path := "a.txt", existsLocally := false }] := by
  decide

/-- The separator condition of C7 as amended is needed: with the local folder `local` the
destination of `a.txt` is `locala.txt`, beside the folder that is scanned, and the second
run plans the same files again. -/
theorem second_run_without_separator :
    (run syncEnv openEndedUpdater staleWorld).2.files
      = [("local/a.txt", "old"), ("locala.txt", "remote a"), ("localb.txt", "remote b")] ∧
    (run syncEnv openEndedUpdater staleWorld).2.openFailures = [] ∧
    (run syncEnv openEndedUpdater (run syncEnv openEndedUpdater staleWorld).2).1.toDownload
      = [{ path := "a.txt", existsLocally := false }, { path := "b.txt", existsLocally := false }] := by
  decide

end AutoUpdater

end SSVAutoUpdater
